import Mathlib

/-!
Verification development for the Axis AI-orchestration layer (src/server.js):
provider selection, JSON extraction/repair, conversation history, the
assistant tool executor and agent loop, provider-adapter retry skeletons and
the streaming endpoint.  JavaScript strings are modelled as `List Char`;
JavaScript numbers as `ℚ` (or `Int` where the source only ever holds
integers); `JSON.parse` is modelled by an executable JSON parser `jsonParse`;
`Date` parsing and wall-clock values, which depend on the runtime
environment, are supplied as explicit environment parameters.
-/

namespace Axis

/-- Whitespace characters recognised by the model of `String.prototype.trim`
and of `JSON.parse` whitespace skipping. -/
def isWs (c : Char) : Bool :=
  c = ' ' || c = '\t' || c = '\n' || c = '\r'

/-- Model of `String.prototype.trim` (leading and trailing whitespace). -/
def jsTrim (s : List Char) : List Char :=
  ((s.dropWhile isWs).reverse.dropWhile isWs).reverse

/-- ASCII lower-casing of a character, model of `toLowerCase` on the
alphabets this code base uses. -/
def lowerChar (c : Char) : Char :=
  if 'A' ≤ c ∧ c ≤ 'Z' then Char.ofNat (c.toNat + 32) else c

/-- ASCII lower-casing of a string. -/
def lowerStr (s : List Char) : List Char :=
  s.map lowerChar

/-- Whether `pat` occurs as a contiguous substring of `s`. -/
def containsSub (s pat : List Char) : Bool :=
  (List.range (s.length + 1)).any (fun i => (s.drop i).take pat.length = pat)

/-- JSON values, the result type of the model of `JSON.parse`.  Numbers are
kept exactly as `mantissa × 10 ^ exponent` (`num m e`), which determines
truthiness (`m ≠ 0`) and equality on every literal this code base handles. -/
inductive Json where
  | null : Json
  | bool : Bool → Json
  | num : Int → Int → Json
  | str : List Char → Json
  | arr : List Json → Json
  | obj : List (List Char × Json) → Json

/-- JavaScript truthiness of a JSON value: `null`, `false`, `0` and the
empty string are falsy; every object and array (even empty) is truthy. -/
def isTruthy : Json → Bool
  | .null => false
  | .bool b => b
  | .num m _ => m ≠ 0
  | .str s => s ≠ []
  | .arr _ => true
  | .obj _ => true

/-- Last-occurrence field lookup in a parsed JSON object: `JSON.parse` lets a
repeated key override earlier occurrences, so an object is modelled as the
member list in source order and lookup takes the last binding. -/
def jsonLookup (fields : List (List Char × Json)) (key : List Char) : Option Json :=
  (fields.reverse.find? (fun kv => kv.1 = key)).map (·.2)

/-- Lexicographic comparison on strings, model of the default
`Array.prototype.sort` comparator on strings. -/
def lexLe : List Char → List Char → Bool
  | [], _ => true
  | _ :: _, [] => false
  | a :: as, b :: bs =>
    if a = b then lexLe as bs else decide (a < b)

/-- Insertion into a lexicographically sorted list. -/
def lexInsert (x : List Char) : List (List Char) → List (List Char)
  | [] => [x]
  | y :: ys => if lexLe x y then x :: y :: ys else y :: lexInsert x ys

/-- Insertion sort with the lexicographic comparator, model of
`Array.prototype.sort()` on an array of strings. -/
def lexSort : List (List Char) → List (List Char)
  | [] => []
  | x :: xs => lexInsert x (lexSort xs)

/-- Digit test. -/
def isDigit (c : Char) : Bool :=
  '0' ≤ c ∧ c ≤ '9'

/-- Numeric value of a decimal digit string. -/
def digitsToNat (ds : List Char) : Nat :=
  ds.foldl (fun a c => a * 10 + (c.toNat - '0'.toNat)) 0

/-- Hexadecimal digit value, for string escapes of the form backslash-u. -/
def hexVal (c : Char) : Option Nat :=
  if '0' ≤ c ∧ c ≤ '9' then some (c.toNat - '0'.toNat)
  else if 'a' ≤ c ∧ c ≤ 'f' then some (c.toNat - 'a'.toNat + 10)
  else if 'A' ≤ c ∧ c ≤ 'F' then some (c.toNat - 'A'.toNat + 10)
  else none

/-- Single-character string escapes of JSON. -/
def escChar (c : Char) : Option Char :=
  if c = '"' then some '"'
  else if c = '\\' then some '\\'
  else if c = '/' then some '/'
  else if c = 'b' then some (Char.ofNat 8)
  else if c = 'f' then some (Char.ofNat 12)
  else if c = 'n' then some '\n'
  else if c = 'r' then some '\r'
  else if c = 't' then some '\t'
  else none

/-- Skip JSON whitespace. -/
def skipWs (s : List Char) : List Char :=
  s.dropWhile isWs

/-- Parse the body of a JSON string literal (after the opening quote),
returning the decoded content and the input after the closing quote. -/
def parseStringBody : Nat → List Char → Option (List Char × List Char)
  | 0, _ => none
  | _, [] => none
  | fuel + 1, c :: rest =>
    if c = '"' then some ([], rest)
    else if c = '\\' then
      match rest with
      | [] => none
      | e :: rest2 =>
        if e = 'u' then
          match rest2 with
          | h1 :: h2 :: h3 :: h4 :: rest3 =>
            match hexVal h1, hexVal h2, hexVal h3, hexVal h4 with
            | some a, some b, some c2, some d =>
              (parseStringBody fuel rest3).map
                (fun p => (Char.ofNat (((a * 16 + b) * 16 + c2) * 16 + d) :: p.1, p.2))
            | _, _, _, _ => none
          | _ => none
        else
          match escChar e with
          | some ec => (parseStringBody fuel rest2).map (fun p => (ec :: p.1, p.2))
          | none => none
    else if c.toNat < 32 then none
    else (parseStringBody fuel rest).map (fun p => (c :: p.1, p.2))

/-- Parse an optional fraction part `.ddd`; fails on a bare dot. -/
def parseFracPart : List Char → Option (List Char × List Char)
  | '.' :: r =>
    let d := r.takeWhile isDigit
    if d = [] then none else some (d, r.dropWhile isDigit)
  | s => some ([], s)

/-- Parse an optional exponent part `e[±]ddd`, returning its signed value. -/
def parseExpPart : List Char → Option (Int × List Char)
  | [] => some (0, [])
  | c :: r =>
    if c = 'e' ∨ c = 'E' then
      let signed : Int × List Char :=
        match r with
        | '+' :: r2 => (1, r2)
        | '-' :: r2 => (-1, r2)
        | _ => (1, r)
      let d := signed.2.takeWhile isDigit
      if d = [] then none
      else some (signed.1 * (digitsToNat d : Int), signed.2.dropWhile isDigit)
    else some (0, c :: r)

/-- Parse a JSON number, returning mantissa `m` and exponent `e` with value
`m × 10 ^ e`, plus the remaining input. -/
def parseNumber (s : List Char) : Option (Int × Int × List Char) :=
  let neg : Bool × List Char :=
    match s with
    | '-' :: r => (true, r)
    | _ => (false, s)
  let ip := neg.2.takeWhile isDigit
  if ip = [] then none
  else
    match parseFracPart (neg.2.dropWhile isDigit) with
    | none => none
    | some (fp, s3) =>
      match parseExpPart s3 with
      | none => none
      | some (ex, rest) =>
        let mN : Int := (digitsToNat (ip ++ fp) : Int)
        some (if neg.1 then -mN else mN, ex - (fp.length : Int), rest)

mutual

/-- Fuel-indexed recursive-descent parser for one JSON value; the model of
the grammar accepted by `JSON.parse`. -/
def parseValue : Nat → List Char → Option (Json × List Char)
  | 0, _ => none
  | fuel + 1, s =>
    match skipWs s with
    | [] => none
    | c :: rest =>
      if c = '{' then
        match skipWs rest with
        | '}' :: r2 => some (.obj [], r2)
        | r2 => (parseMembers fuel r2).map (fun p => (.obj p.1, p.2))
      else if c = '[' then
        match skipWs rest with
        | ']' :: r2 => some (.arr [], r2)
        | r2 => (parseElems fuel r2).map (fun p => (.arr p.1, p.2))
      else if c = '"' then
        (parseStringBody rest.length rest).map (fun p => (.str p.1, p.2))
      else if c = 't' then
        match rest with
        | 'r' :: 'u' :: 'e' :: r => some (.bool true, r)
        | _ => none
      else if c = 'f' then
        match rest with
        | 'a' :: 'l' :: 's' :: 'e' :: r => some (.bool false, r)
        | _ => none
      else if c = 'n' then
        match rest with
        | 'u' :: 'l' :: 'l' :: r => some (.null, r)
        | _ => none
      else if c = '-' ∨ isDigit c then
        (parseNumber (c :: rest)).map (fun p => (.num p.1 p.2.1, p.2.2))
      else none

/-- Parse the members of a nonempty JSON object up to the closing brace. -/
def parseMembers : Nat → List Char → Option (List (List Char × Json) × List Char)
  | 0, _ => none
  | fuel + 1, s =>
    match skipWs s with
    | '"' :: rest =>
      match parseStringBody rest.length rest with
      | none => none
      | some (key, r1) =>
        match skipWs r1 with
        | ':' :: r2 =>
          match parseValue fuel r2 with
          | none => none
          | some (v, r3) =>
            match skipWs r3 with
            | ',' :: r4 => (parseMembers fuel r4).map (fun p => ((key, v) :: p.1, p.2))
            | '}' :: r4 => some ([(key, v)], r4)
            | _ => none
        | _ => none
    | _ => none

/-- Parse the elements of a nonempty JSON array up to the closing bracket. -/
def parseElems : Nat → List Char → Option (List Json × List Char)
  | 0, _ => none
  | fuel + 1, s =>
    match parseValue fuel s with
    | none => none
    | some (v, r1) =>
      match skipWs r1 with
      | ',' :: r2 => (parseElems fuel r2).map (fun p => (v :: p.1, p.2))
      | ']' :: r2 => some ([v], r2)
      | _ => none

end

/-- Model of `JSON.parse`: parse one value and require that only whitespace
remains.  The fuel `2 * length + 2` dominates the recursion depth, which
consumes at least one character per two fuel units. -/
def jsonParse (s : List Char) : Option Json :=
  match parseValue (2 * s.length + 2) s with
  | some (v, rest) => if skipWs rest = [] then some v else none
  | none => none

/-- `safeParseJSON` (server.js:191): `JSON.parse` with failures mapped to
`null`; a thrown parse error and a parsed `null` are both modelled as the
respective `Option`/`Json.null` results, which callers distinguish only
through truthiness. -/
def safeParseJSON (s : List Char) : Option Json :=
  jsonParse s

/-- Keep a parse result only if it is truthy, the test every
`if (parsed) ...` site performs. -/
def truthyOpt : Option Json → Option Json
  | some v => if isTruthy v then some v else none
  | none => none

/-- Strip a case-insensitive `json` tag, the optional group of the fence
regex `/```(?:json)?/gi`. -/
def stripJsonTag : List Char → List Char
  | j :: s :: o :: n :: rest =>
    if lowerChar j = 'j' ∧ lowerChar s = 's' ∧ lowerChar o = 'o' ∧ lowerChar n = 'n' then rest
    else j :: s :: o :: n :: rest
  | s => s

/-- Model of `raw.replace(/```(?:json)?/gi, "")`: remove every occurrence of
three backticks optionally followed by a case-insensitive `json` tag,
scanning left to right.  Fuel-indexed; `removeFences` supplies enough. -/
def removeFencesFuel : Nat → List Char → List Char
  | 0, s => s
  | _, [] => []
  | fuel + 1, c :: rest =>
    if c = '`' ∧ rest.take 2 = ['`', '`'] then
      removeFencesFuel fuel (stripJsonTag (rest.drop 2))
    else c :: removeFencesFuel fuel rest

/-- Fence-marker removal at full fuel. -/
def removeFences (s : List Char) : List Char :=
  removeFencesFuel s.length s

/-- The brace scan of `extractFirstJsonObject` (server.js:203-229): walk the
input from the first `{`, tracking depth, string state and escapes, and
return the consumed characters once depth returns to zero. -/
def scanBraces : List Char → Int → Bool → Bool → List Char → Option (List Char)
  | [], _, _, _, _ => none
  | c :: rest, depth, inString, escaped, acc =>
    if inString then
      if escaped then scanBraces rest depth true false (c :: acc)
      else if c = '\\' then scanBraces rest depth true true (c :: acc)
      else if c = '"' then scanBraces rest depth false false (c :: acc)
      else scanBraces rest depth true false (c :: acc)
    else if c = '"' then scanBraces rest depth true false (c :: acc)
    else
      let d := if c = '{' then depth + 1 else if c = '}' then depth - 1 else depth
      if d = 0 then some (c :: acc).reverse
      else scanBraces rest d false false (c :: acc)

/-- `extractFirstJsonObject` (server.js:199): find the first `{` and return
the minimal brace-balanced substring starting there, or `null`. -/
def extractFirstJsonObject (text : List Char) : Option (List Char) :=
  match text.dropWhile (fun c => c ≠ '{') with
  | [] => none
  | rest => scanBraces rest 0 false false []

/-- `safeParseJSONFromText` (server.js:233): direct parse of the trimmed
text, then fence-stripped parse, each kept only when truthy, then parse of
the first brace-balanced substring (of the raw text, else of the
fence-stripped text), returned without a truthiness gate. -/
def safeParseJSONFromText (text : List Char) : Option Json :=
  let raw := jsTrim text
  match truthyOpt (safeParseJSON raw) with
  | some v => some v
  | none =>
    let withoutFences := jsTrim (removeFences raw)
    match truthyOpt (safeParseJSON withoutFences) with
    | some v => some v
    | none =>
      match (extractFirstJsonObject raw).or (extractFirstJsonObject withoutFences) with
      | some extracted => safeParseJSON extracted
      | none => none

example : jsonParse "null".data = some Json.null := by rfl

example : jsonParse "\x7b\"a\":1\x7d ".data = some (Json.obj [(['a'], Json.num 1 0)]) := by
  rfl

example : jsonParse "[0, \x7b\"a\":1\x7d]".data
    = some (Json.arr [Json.num 0 0, Json.obj [(['a'], Json.num 1 0)]]) := by rfl

example : extractFirstJsonObject "\x7b\"a\":1\x7d thanks!".data =
    some "\x7b\"a\":1\x7d".data := by rfl

example : safeParseJSONFromText "x \x7b\"a\":1\x7d thanks!".data
    = some (Json.obj [(['a'], Json.num 1 0)]) := by rfl

example : safeParseJSONFromText "0".data = none := by rfl

/-- One outbound LLM request, as issued by `callLlm`: the fields of the
options object that the JSON-repair pipeline controls. -/
structure LlmCall where
  system : List Char
  userMsg : List Char
  temperature : ℚ
  maxTokens : Nat
  expectJSON : Bool
deriving DecidableEq

/-- Result of `callLlmWithJsonRepair`: `{ok:true, raw, data, repaired}` or
the hard failure `{ok:false, raw, repairedRaw}`. -/
inductive RepairResult (α : Type) where
  | success (raw : List Char) (data : α) (repaired : Bool)
  | failure (raw repairedRaw : List Char)

/-- Whether a repair-pipeline result is the `{ok:false}` hard failure. -/
def RepairResult.isFailure {α : Type} : RepairResult α → Bool
  | .failure _ _ => true
  | _ => false

/-- The repair-call system prompt (server.js:272). -/
def strictJsonFormatterSystem : List Char :=
  ("You are a strict JSON formatter. Output ONLY valid JSON. " ++
   "No markdown fences, no commentary, no trailing commas.").data

/-- The repair-call user prompt (server.js:274-282): the fixed intro, an
optional schema line, a `Text to fix:` header and the original raw text,
with empty lines removed by `.filter(Boolean)` and joined by newlines. -/
def buildRepairUser (schemaHint : Option (List Char)) (raw : List Char) : List Char :=
  let lines : List (List Char) :=
    ["Fix the following text into strict JSON that matches this schema:".data,
     (match schemaHint with
      | some h => "Schema: ".data ++ h
      | none => []),
     [],
     "Text to fix:".data,
     raw]
  List.intercalate ['\n'] (lines.filter (fun l => l ≠ []))

/-- `callLlmWithJsonRepair` (server.js:248-300), with the provider call
modelled by a deterministic `oracle` from requests to raw reply text and the
zod `schema.safeParse` by a function from the parsed value (possibly `null`)
to an optional typed result.  Returns the result together with the list of
LLM requests issued, in order. -/
def callLlmWithJsonRepair {α : Type} (oracle : LlmCall → List Char)
    (schema : Option Json → Option α) (system userMsg : List Char)
    (temperature : ℚ) (maxTokens : Nat) (schemaHint : Option (List Char)) :
    RepairResult α × List LlmCall :=
  let call1 : LlmCall := ⟨system, userMsg, temperature, maxTokens, true⟩
  let raw := oracle call1
  match schema (safeParseJSONFromText raw) with
  | some d => (.success raw d false, [call1])
  | none =>
    let call2 : LlmCall :=
      ⟨strictJsonFormatterSystem, buildRepairUser schemaHint raw, 0,
        max 300 (min maxTokens 1200), true⟩
    let repairedRaw := oracle call2
    match schema (safeParseJSONFromText repairedRaw) with
    | some d => (.success repairedRaw d true, [call1, call2])
    | none => (.failure raw repairedRaw, [call1, call2])

/-- Process-wide provider configuration: the computed `LLM_PROVIDER`
constant and the three normalized API keys. -/
structure ProviderEnv where
  llmProvider : List Char
  deepseekKey : List Char
  openaiKey : List Char
  geminiKey : List Char
deriving DecidableEq

/-- The closed provider-name set `SUPPORTED_LLM_PROVIDERS`, in insertion
order. -/
def SUPPORTED_LLM_PROVIDERS : List (List Char) :=
  ["deepseek".data, "openai".data, "gemini".data]

/-- `normalizeProvider` (server.js:140): trim, lower-case, keep only
supported names, else the empty string. -/
def normalizeProvider (v : List Char) : List Char :=
  let raw := lowerStr (jsTrim v)
  if SUPPORTED_LLM_PROVIDERS.contains raw then raw else []

/-- `isProviderConfigured` (server.js:145): the normalized provider's key is
present and not the placeholder value. -/
def isProviderConfigured (env : ProviderEnv) (p : List Char) : Bool :=
  let n := normalizeProvider p
  if n = "deepseek".data then
    env.deepseekKey ≠ [] ∧ env.deepseekKey ≠ "your_deepseek_api_key_here".data
  else if n = "openai".data then
    env.openaiKey ≠ [] ∧ env.openaiKey ≠ "your_openai_api_key_here".data
  else if n = "gemini".data then
    env.geminiKey ≠ [] ∧ env.geminiKey ≠ "your_gemini_api_key_here".data
  else false

/-- `listConfiguredProviders` (server.js:159): configured providers,
lexicographically sorted by `Array.prototype.sort`. -/
def listConfiguredProviders (env : ProviderEnv) : List (List Char) :=
  lexSort (SUPPORTED_LLM_PROVIDERS.filter (isProviderConfigured env))

/-- The expression `normalizeProvider(LLM_PROVIDER) || "deepseek"` used as
the environment default by both resolvers. -/
def envDefaultProvider (env : ProviderEnv) : List Char :=
  let n := normalizeProvider env.llmProvider
  if n = [] then "deepseek".data else n

/-- `resolveProviderForRequest` (server.js:177). -/
def resolveProviderForRequest (env : ProviderEnv) (requestedProvider : List Char) : List Char :=
  let requested := normalizeProvider requestedProvider
  if requested ≠ [] ∧ isProviderConfigured env requested then requested
  else
    let envDefault := envDefaultProvider env
    if isProviderConfigured env envDefault then envDefault
    else
      match listConfiguredProviders env with
      | c :: _ => c
      | [] => if requested ≠ [] then requested else envDefault

/-- The `settings.aiProvider` normalization of `ensureAxisUserDataShape`
(server.js:1528-1530): a string setting is trimmed and lower-cased and kept
only when supported, anything else becomes `null`. -/
def shapeAiProvider (setting : Option (List Char)) : Option (List Char) :=
  match setting with
  | some s =>
    let t := lowerStr (jsTrim s)
    if SUPPORTED_LLM_PROVIDERS.contains t then some t else none
  | none => none

/-- The `normalizeProvider(safeData?.settings?.aiProvider)` step of
`resolveProviderForUserData`: the shaped setting re-normalized, with `null`
becoming the empty string. -/
def userSelectedProvider (aiProviderSetting : Option (List Char)) : List Char :=
  match shapeAiProvider aiProviderSetting with
  | some t => normalizeProvider t
  | none => []

/-- `resolveProviderForUserData` (server.js:163), taking the raw
`settings.aiProvider` value (`none` models every non-string value). -/
def resolveProviderForUserData (env : ProviderEnv) (aiProviderSetting : Option (List Char)) :
    List Char :=
  let selected := userSelectedProvider aiProviderSetting
  if selected ≠ [] ∧ isProviderConfigured env selected then selected
  else
    let envDefault := envDefaultProvider env
    if isProviderConfigured env envDefault then envDefault
    else
      match listConfiguredProviders env with
      | c :: _ => c
      | [] => envDefault

/-- Role of a conversation-history entry. -/
inductive Role where
  | user : Role
  | assistant : Role
deriving DecidableEq

/-- One stored history entry `{role, content, ts}`; the timestamp is an
abstract clock value. -/
structure HistEntry where
  role : Role
  content : List Char
  ts : Nat
deriving DecidableEq

/-- One incoming entry handed to `appendAssistantHistory` before
normalization: an arbitrary role string and raw content. -/
structure RawHistEntry where
  role : List Char
  content : List Char
deriving DecidableEq

/-- `ASSISTANT_HISTORY_LIMIT` (server.js:1789). -/
def ASSISTANT_HISTORY_LIMIT : Nat := 20

/-- `ASSISTANT_HISTORY_CONTEXT` (server.js:1790). -/
def ASSISTANT_HISTORY_CONTEXT : Nat := 12

/-- The stored entry an incoming entry becomes: non-assistant roles collapse
to `user`, content is trimmed and cut to 1200 characters. -/
def normalizeHistEntry (e : RawHistEntry) (now : Nat) : HistEntry :=
  ⟨if e.role = "assistant".data then .assistant else .user, (jsTrim e.content).take 1200, now⟩

/-- The per-entry push step of `appendAssistantHistory`
(server.js:1803-1814): entries with empty trimmed content are skipped,
others are appended normalized and set the `changed` flag. -/
def histPush (now : Nat) (acc : List HistEntry × Bool) (e : RawHistEntry) :
    List HistEntry × Bool :=
  if jsTrim e.content = [] then acc
  else (acc.1 ++ [normalizeHistEntry e now], true)

/-- The stored entries a batch of incoming entries contributes, in order. -/
def histProcessed (now : Nat) (entries : List RawHistEntry) : List HistEntry :=
  entries.filterMap (fun e =>
    if jsTrim e.content = [] then none else some (normalizeHistEntry e now))

/-- `appendAssistantHistory` body continued: push each valid entry, then cut
to the newest `ASSISTANT_HISTORY_LIMIT` entries. -/
def appendAssistantHistory (history : List HistEntry) (entries : List RawHistEntry) (now : Nat) :
    List HistEntry × Bool :=
  let pushed := entries.foldl (histPush now) (history, false)
  (if pushed.1.length > ASSISTANT_HISTORY_LIMIT then
      pushed.1.drop (pushed.1.length - ASSISTANT_HISTORY_LIMIT)
    else pushed.1,
   pushed.2)

/-- The prompt line one history entry contributes. -/
def histEntryLine (e : HistEntry) : List Char :=
  (if e.role = .assistant then "Assistant: ".data else "User: ".data) ++ e.content

/-- `formatAssistantHistory` (server.js:1821-1828): the newest
`ASSISTANT_HISTORY_CONTEXT` entries, one line each. -/
def formatAssistantHistory (history : List HistEntry) : List Char :=
  if history = [] then []
  else
    List.intercalate ['\n'] ((history.drop (history.length - ASSISTANT_HISTORY_CONTEXT)).map histEntryLine)

/-- Decimal rendering of a natural number, for generated ids such as
`task_${Date.now()}_${hex}`. -/
def natDigits (n : Nat) : List Char :=
  Nat.toDigits 10 n

/-- A task record with the canonical fields `createAxisTask` produces and
the tool handlers read or write. -/
structure Task where
  id : List Char
  task_name : List Char
  task_priority : List Char
  task_category : List Char
  task_deadline : List Char
  task_deadline_time : List Char
  task_duration_hours : ℚ
  computer_required : Bool
  completed : Bool
  completedAt : Option (List Char)
  createdAt : List Char
  updatedAt : Option (List Char)
  fromDailyGoal : Bool
  goalId : Option (List Char)
deriving DecidableEq

/-- A schedule block `{kind, taskId, start, end}`; the ISO timestamps are
carried as their millisecond values. -/
structure SchedBlock where
  kind : List Char
  taskId : List Char
  startMs : Int
  endMs : Int
deriving DecidableEq

/-- A fixed (unavailable) block. -/
structure FixedBlock where
  startMs : Int
  endMs : Int
  label : List Char
  category : List Char
deriving DecidableEq

/-- A goal record as `createAxisGoal` produces it; the palette colour is
carried by its index. -/
structure Goal where
  id : List Char
  name : List Char
  level : List Char
  parentId : Option (List Char)
  colorIdx : Nat
  createdAt : List Char
  manualProgress : Int
  milestones : List Int
  startDate : List Char
  endDate : List Char
  completed : Bool
  completedAt : List Char
  updatedAt : Option (List Char)
deriving DecidableEq

/-- A daily-habit record. -/
structure Habit where
  id : List Char
  name : List Char
  time : List Char
  description : List Char
  createdAt : List Char
deriving DecidableEq

/-- The profile fields `buildAssistantSnapshot` projects. -/
structure Profile where
  user_name : List Char
  user_age_group : List Char
  most_productive_time : List Char
  preferred_work_style : List Char
  preferred_study_method : List Char
  procrastinator_type : List Char
  has_trouble_finishing : List Char
deriving DecidableEq

/-- The planner-state fields the assistant layer reads or writes, after
`ensureAxisUserDataShape` (the agent endpoints shape the record once on
entry, so the executor always sees this form). -/
structure AxisData where
  aiProvider : Option (List Char)
  profile : Option Profile
  tasks : List Task
  schedule : List SchedBlock
  fixedBlocks : List FixedBlock
  goals : List Goal
  dailyHabits : List Habit
  assistantHistory : List HistEntry
  lastRebalancedAt : Option (List Char)
deriving DecidableEq

/-- Runtime environment of one request: clock, randomness, the model of
JavaScript `Date` parsing/printing, the timezone-dependent goal-date
defaults, and the external calendar-token collaborator. -/
structure Env where
  nowMs : Nat
  nonce : List Char
  nowIso : List Char
  todayKey : List Char
  goalDates : List Char → List Char × List Char
  jsDate : Option Json → Option Int
  isoOfMs : Int → List Char
  calendarToken : Option (List Char)
  baseUrl : List Char

/-- Replace each run of non-lowercase-letters by one dash, the
`replace(/[^a-z]+/g, "-")` step applied after lower-casing. -/
def nonAlphaRunsToDash : Bool → List Char → List Char
  | _, [] => []
  | inRun, c :: rest =>
    if 'a' ≤ c ∧ c ≤ 'z' then c :: nonAlphaRunsToDash false rest
    else if inRun then nonAlphaRunsToDash true rest
    else '-' :: nonAlphaRunsToDash true rest

/-- Replace each whitespace run by one dash, the `replace(/\s+/g, "-")`
step of `goalSlug`. -/
def wsRunsToDash : Bool → List Char → List Char
  | _, [] => []
  | inRun, c :: rest =>
    if isWs c then
      if inRun then wsRunsToDash true rest else '-' :: wsRunsToDash true rest
    else c :: wsRunsToDash false rest

/-- `normalizeTaskPriority` (server.js:1553). -/
def normalizeTaskPriority (value : List Char) : List Char :=
  if value = [] then []
  else
    let v := jsTrim value
    let allowed : List (List Char) :=
      ["Urgent & Important".data, "Urgent, Not Important".data,
       "Important, Not Urgent".data, "Not Urgent & Not Important".data]
    if allowed.contains v then v
    else
      let key := nonAlphaRunsToDash false (lowerStr v)
      if key = "urgent-important".data then "Urgent & Important".data
      else if key = "urgent-not-important".data then "Urgent, Not Important".data
      else if key = "important-not-urgent".data then "Important, Not Urgent".data
      else if key = "not-urgent-not-important".data then "Not Urgent & Not Important".data
      else []

/-- `normalizeTaskCategory` (server.js:1574). -/
def normalizeTaskCategory (value : List Char) : List Char :=
  if value = [] then "study".data else lowerStr (jsTrim value)

/-- `clampTaskDurationHours` (server.js:1579); the outer `Option` is an
absent field, the inner an explicit `null`. -/
def clampTaskDurationHours (value : Option (Option ℚ)) : ℚ :=
  match value with
  | some (some n) => if n < 0 then 0 else min 24 n
  | _ => 0

/-- Arguments accepted by `taskCreateSchema`. -/
structure TaskCreateArgs where
  task_name : List Char
  task_priority : Option (List Char)
  task_category : Option (List Char)
  task_deadline : Option (List Char)
  task_deadline_time : Option (List Char)
  task_duration_hours : Option (Option ℚ)
  computer_required : Option Bool
deriving DecidableEq

/-- `createAxisTask` (server.js:1586). -/
def createAxisTask (env : Env) (input : TaskCreateArgs) : Task where
  id := "task_".data ++ natDigits env.nowMs ++ '_' :: env.nonce
  task_name := jsTrim input.task_name
  task_priority :=
    let p := normalizeTaskPriority (input.task_priority.getD [])
    if p = [] then "Important, Not Urgent".data else p
  task_category := normalizeTaskCategory (input.task_category.getD [])
  task_deadline := jsTrim (input.task_deadline.getD [])
  task_deadline_time :=
    jsTrim (match input.task_deadline_time with
      | some t => if t = [] then "23:59".data else t
      | none => "23:59".data)
  task_duration_hours := clampTaskDurationHours input.task_duration_hours
  computer_required := input.computer_required.getD false
  completed := false
  completedAt := none
  createdAt := env.nowIso
  updatedAt := none
  fromDailyGoal := false
  goalId := none

/-- `normalizeGoalLevel` (server.js:1619). -/
def normalizeGoalLevel (value : List Char) : List Char :=
  let raw := lowerStr (jsTrim value)
  if raw = [] then "lifetime".data
  else
    let n := nonAlphaRunsToDash false raw
    if n = "lifetime".data ∨ n = "life".data ∨ n = "long-term".data ∨ n = "longterm".data then
      "lifetime".data
    else if n = "yearly".data ∨ n = "annual".data ∨ n = "year".data then "yearly".data
    else if n = "seasonal".data ∨ n = "quarterly".data ∨ n = "quarter".data then "seasonal".data
    else if n = "monthly".data ∨ n = "month".data then "monthly".data
    else if n = "weekly".data ∨ n = "week".data then "weekly".data
    else if n = "daily".data ∨ n = "day".data then "daily".data
    else "lifetime".data

/-- JavaScript `Math.round`: half-up toward positive infinity. -/
def jsRound (q : ℚ) : Int :=
  Int.floor (q + 1 / 2)

/-- `clampGoalProgress` (server.js:1644). -/
def clampGoalProgress (value : Option ℚ) : Int :=
  match value with
  | none => 0
  | some n => max 0 (min 100 (jsRound n))

/-- First-occurrence deduplication, the `Array.from(new Set(...))` step. -/
def dedupFirst (l : List Int) : List Int :=
  l.foldl (fun acc n => if acc.contains n then acc else acc ++ [n]) []

/-- Insertion into an ascending `Int` list. -/
def intInsert (x : Int) : List Int → List Int
  | [] => [x]
  | y :: ys => if x ≤ y then x :: y :: ys else y :: intInsert x ys

/-- Ascending insertion sort, the `sort((a, b) => a - b)` step. -/
def intSort : List Int → List Int
  | [] => []
  | x :: xs => intInsert x (intSort xs)

/-- `normalizeGoalMilestones` (server.js:1651) on a zod-validated numeric
array (`none` models an absent or null field). -/
def normalizeGoalMilestones (value : Option (List ℚ)) : List Int :=
  let fallback : List Int := [25, 50, 75]
  match value with
  | none => fallback
  | some arr =>
    let cleaned := arr.map (fun n => max 0 (min 100 (jsRound n)))
    let unique := intSort (dedupFirst cleaned)
    if unique = [] then fallback else unique

/-- `goalSlug` (server.js:1668) applied to a goal name. -/
def goalSlug (name : List Char) : List Char :=
  wsRunsToDash false (lowerStr (jsTrim name))

/-- `GOAL_COLOR_PALETTE.length` (server.js:1610). -/
def GOAL_COLOR_PALETTE_LENGTH : Nat := 6

/-- `defaultGoalDates` (server.js:1676): empty for lifetime goals, else the
timezone-dependent period bounds supplied by the environment. -/
def defaultGoalDates (env : Env) (level : List Char) : List Char × List Char :=
  if level = "lifetime".data then ([], []) else env.goalDates level

/-- Arguments accepted by `goalCreateSchema`; for `parentId` the outer
`Option` is an absent field and the inner an explicit `null`. -/
structure GoalCreateArgs where
  name : List Char
  level : Option (List Char)
  parentId : Option (Option (List Char))
  startDate : Option (List Char)
  endDate : Option (List Char)
  manualProgress : Option ℚ
  milestones : Option (List ℚ)
deriving DecidableEq

/-- `createAxisGoal` (server.js:1707). -/
def createAxisGoal (env : Env) (input : GoalCreateArgs) (index : Nat) : Goal :=
  let level := normalizeGoalLevel (input.level.getD [])
  let startDate0 := jsTrim (input.startDate.getD [])
  let endDate0 := jsTrim (input.endDate.getD [])
  let dates :=
    if startDate0 = [] ∧ endDate0 = [] then defaultGoalDates env level
    else (startDate0, endDate0)
  { id := "goal_".data ++ natDigits env.nowMs ++ '_' :: env.nonce
    name := jsTrim input.name
    level := level
    parentId :=
      match input.parentId with
      | some (some s) => if s = [] then none else some (jsTrim s)
      | _ => none
    colorIdx := index % GOAL_COLOR_PALETTE_LENGTH
    createdAt := env.nowIso
    manualProgress := clampGoalProgress input.manualProgress
    milestones := normalizeGoalMilestones input.milestones
    startDate := dates.1
    endDate := dates.2
    completed := false
    completedAt := []
    updatedAt := none }

/-- The task `ensureDailyGoalTask` creates for a daily goal. -/
def dailyGoalTask (env : Env) (goal : Goal) (slug : List Char) : Task where
  id := "task_goal_".data ++ goal.id
  task_name := goal.name
  task_priority := "Important, Not Urgent".data
  task_category := if slug = [] then "study".data else slug
  task_deadline := env.todayKey
  task_deadline_time := "23:59".data
  task_duration_hours := 1
  computer_required := false
  completed := false
  completedAt := none
  createdAt := env.nowIso
  updatedAt := none
  fromDailyGoal := true
  goalId := some goal.id

/-- In-place update of the first linked daily-goal task
(server.js:1760-1770). -/
def updateFirstDailyGoalTask (goal : Goal) (slug : List Char) : List Task → List Task
  | [] => []
  | t :: rest =>
    if t.fromDailyGoal ∧ t.goalId = some goal.id then
      { t with
        task_name := if goal.name ≠ [] ∧ t.task_name ≠ goal.name then goal.name else t.task_name
        task_category :=
          if slug ≠ [] ∧ t.task_category ≠ slug then slug else t.task_category } :: rest
    else t :: updateFirstDailyGoalTask goal slug rest

/-- `ensureDailyGoalTask` (server.js:1737) as a transform of the task list. -/
def ensureDailyGoalTask (env : Env) (tasks : List Task) (goal : Goal) : List Task :=
  if goal.level ≠ "daily".data then tasks
  else
    let slug := goalSlug goal.name
    if (tasks.find? (fun t => t.fromDailyGoal ∧ t.goalId = some goal.id)).isNone then
      tasks ++ [dailyGoalTask env goal slug]
    else updateFirstDailyGoalTask goal slug tasks

/-- `removeDailyGoalTasks` (server.js:1773) as a transform of the task list
and schedule. -/
def removeDailyGoalTasks (goalId : List Char) (tasks : List Task)
    (schedule : List SchedBlock) : List Task × List SchedBlock :=
  let removedIds :=
    (tasks.filter (fun t => t.fromDailyGoal ∧ t.goalId = some goalId ∧ t.id ≠ [])).map (·.id)
  let tasks2 := tasks.filter (fun t => ¬ (t.fromDailyGoal ∧ t.goalId = some goalId))
  let schedule2 :=
    if removedIds ≠ [] then schedule.filter (fun b => ¬ removedIds.contains b.taskId)
    else schedule
  (tasks2, schedule2)

/-- Rational value of a parsed JSON number. -/
def qOfNum (m e : Int) : ℚ :=
  (m : ℚ) * (10 : ℚ) ^ e

/-- zod required bounded string field. -/
def fStrB (fields : List (List Char × Json)) (key : List Char) (lo hi : Nat) :
    Option (List Char) :=
  match jsonLookup fields key with
  | some (.str s) => if lo ≤ s.length ∧ s.length ≤ hi then some s else none
  | _ => none

/-- zod optional bounded string field; `some none` is an absent field. -/
def fStrB? (fields : List (List Char × Json)) (key : List Char) (lo hi : Nat) :
    Option (Option (List Char)) :=
  match jsonLookup fields key with
  | none => some none
  | some (.str s) => if lo ≤ s.length ∧ s.length ≤ hi then some (some s) else none
  | some _ => none

/-- zod optional unbounded string field. -/
def fStr? (fields : List (List Char × Json)) (key : List Char) :
    Option (Option (List Char)) :=
  match jsonLookup fields key with
  | none => some none
  | some (.str s) => some (some s)
  | some _ => none

/-- zod optional nullable string field; the middle `Option` distinguishes an
explicit `null` from an absent field. -/
def fStrNull? (fields : List (List Char × Json)) (key : List Char) :
    Option (Option (Option (List Char))) :=
  match jsonLookup fields key with
  | none => some none
  | some .null => some (some none)
  | some (.str s) => some (some (some s))
  | some _ => none

/-- zod optional number field. -/
def fNum? (fields : List (List Char × Json)) (key : List Char) : Option (Option ℚ) :=
  match jsonLookup fields key with
  | none => some none
  | some (.num m e) => some (some (qOfNum m e))
  | some _ => none

/-- zod optional bounded number field. -/
def fNumB? (fields : List (List Char × Json)) (key : List Char) (lo hi : ℚ) :
    Option (Option ℚ) :=
  match jsonLookup fields key with
  | none => some none
  | some (.num m e) =>
    let q := qOfNum m e
    if lo ≤ q ∧ q ≤ hi then some (some q) else none
  | some _ => none

/-- zod optional nullable number field. -/
def fNumNull? (fields : List (List Char × Json)) (key : List Char) :
    Option (Option (Option ℚ)) :=
  match jsonLookup fields key with
  | none => some none
  | some .null => some (some none)
  | some (.num m e) => some (some (some (qOfNum m e)))
  | some _ => none

/-- zod optional bounded integer field (`z.number().int().min(lo).max(hi)`). -/
def fIntB? (fields : List (List Char × Json)) (key : List Char) (lo hi : Int) :
    Option (Option Int) :=
  match jsonLookup fields key with
  | none => some none
  | some (.num m e) =>
    let q := qOfNum m e
    if q.den = 1 ∧ lo ≤ q.num ∧ q.num ≤ hi then some (some q.num) else none
  | some _ => none

/-- zod optional boolean field. -/
def fBool? (fields : List (List Char × Json)) (key : List Char) : Option (Option Bool) :=
  match jsonLookup fields key with
  | none => some none
  | some (.bool b) => some (some b)
  | some _ => none

/-- zod optional array-of-numbers field. -/
def fNumArr? (fields : List (List Char × Json)) (key : List Char) :
    Option (Option (List ℚ)) :=
  match jsonLookup fields key with
  | none => some none
  | some (.arr l) =>
    (l.mapM (fun j => match j with
      | Json.num m e => some (qOfNum m e)
      | _ => none)).map some
  | some _ => none

/-- The object members of a tool-argument value: the executor substitutes
`{}` for every non-object argument, and arrays (JavaScript objects, but
rejected by every `z.object`) fail each schema. -/
def argFields (args : Option Json) : Option (List (List Char × Json)) :=
  match args with
  | some (.obj f) => some f
  | some (.arr _) => none
  | _ => some []

/-- Model of `taskCreateSchema.safeParse` on the executor's input object. -/
def taskCreateSchemaParse (args : Option Json) : Option TaskCreateArgs := do
  let f ← argFields args
  let task_name ← fStrB f "task_name".data 1 200
  let task_priority ← fStr? f "task_priority".data
  let task_category ← fStr? f "task_category".data
  let task_deadline ← fStr? f "task_deadline".data
  let task_deadline_time ← fStr? f "task_deadline_time".data
  let task_duration_hours ← fNumNull? f "task_duration_hours".data
  let computer_required ← fBool? f "computer_required".data
  pure ⟨task_name, task_priority, task_category, task_deadline, task_deadline_time,
        task_duration_hours, computer_required⟩

/-- Arguments accepted by `assistantUpdateTaskSchema`
(`taskUpdateSchema.extend({id})`). -/
structure TaskPatchArgs where
  id : List Char
  task_name : Option (List Char)
  task_priority : Option (List Char)
  task_category : Option (List Char)
  task_deadline : Option (List Char)
  task_deadline_time : Option (List Char)
  task_duration_hours : Option (Option ℚ)
  computer_required : Option Bool
  completed : Option Bool
deriving DecidableEq

/-- Model of `assistantUpdateTaskSchema.safeParse`. -/
def assistantUpdateTaskSchemaParse (args : Option Json) : Option TaskPatchArgs := do
  let f ← argFields args
  let id ← fStrB f "id".data 1 200
  let task_name ← fStrB? f "task_name".data 1 200
  let task_priority ← fStr? f "task_priority".data
  let task_category ← fStr? f "task_category".data
  let task_deadline ← fStr? f "task_deadline".data
  let task_deadline_time ← fStr? f "task_deadline_time".data
  let task_duration_hours ← fNumNull? f "task_duration_hours".data
  let computer_required ← fBool? f "computer_required".data
  let completed ← fBool? f "completed".data
  pure ⟨id, task_name, task_priority, task_category, task_deadline, task_deadline_time,
        task_duration_hours, computer_required, completed⟩

/-- Model of the three `{id}` delete schemas
(`assistantDeleteTaskSchema`, `assistantDeleteGoalSchema`,
`assistantDeleteHabitSchema`). -/
def idSchemaParse (args : Option Json) : Option (List Char) := do
  let f ← argFields args
  fStrB f "id".data 1 200

/-- Model of `goalCreateSchema.safeParse`. -/
def goalCreateSchemaParse (args : Option Json) : Option GoalCreateArgs := do
  let f ← argFields args
  let name ← fStrB f "name".data 1 200
  let level ← fStr? f "level".data
  let parentId ← fStrNull? f "parentId".data
  let startDate ← fStr? f "startDate".data
  let endDate ← fStr? f "endDate".data
  let manualProgress ← fNumB? f "manualProgress".data 0 100
  let milestones ← fNumArr? f "milestones".data
  pure ⟨name, level, parentId, startDate, endDate, manualProgress, milestones⟩

/-- Arguments accepted by `goalUpdateSchema`. -/
structure GoalPatchArgs where
  id : List Char
  name : Option (List Char)
  level : Option (List Char)
  parentId : Option (Option (List Char))
  startDate : Option (List Char)
  endDate : Option (List Char)
  manualProgress : Option ℚ
  milestones : Option (List ℚ)
  completed : Option Bool
deriving DecidableEq

/-- Model of `goalUpdateSchema.safeParse`. -/
def goalUpdateSchemaParse (args : Option Json) : Option GoalPatchArgs := do
  let f ← argFields args
  let id ← fStrB f "id".data 1 200
  let name ← fStrB? f "name".data 1 200
  let level ← fStr? f "level".data
  let parentId ← fStrNull? f "parentId".data
  let startDate ← fStr? f "startDate".data
  let endDate ← fStr? f "endDate".data
  let manualProgress ← fNumB? f "manualProgress".data 0 100
  let milestones ← fNumArr? f "milestones".data
  let completed ← fBool? f "completed".data
  pure ⟨id, name, level, parentId, startDate, endDate, manualProgress, milestones, completed⟩

/-- Arguments accepted by `habitCreateSchema`, with the `""` default for the
description already applied. -/
structure HabitCreateArgs where
  name : List Char
  time : List Char
  description : List Char
deriving DecidableEq

/-- Model of `habitCreateSchema.safeParse`. -/
def habitCreateSchemaParse (args : Option Json) : Option HabitCreateArgs := do
  let f ← argFields args
  let name ← fStrB f "name".data 1 120
  let time ← fStrB f "time".data 1 40
  let description ← fStrB? f "description".data 0 240
  pure ⟨name, time, description.getD []⟩

/-- Arguments accepted by `assistantRebalanceSchema`, defaults applied. -/
structure RebalanceArgs where
  horizonDays : Int
  maxHoursPerDay : ℚ
deriving DecidableEq

/-- Model of `assistantRebalanceSchema.safeParse`. -/
def assistantRebalanceSchemaParse (args : Option Json) : Option RebalanceArgs := do
  let f ← argFields args
  let horizonDays ← fIntB? f "horizonDays".data 1 21
  let maxHoursPerDay ← fNumB? f "maxHoursPerDay".data 1 16
  pure ⟨horizonDays.getD 7, maxHoursPerDay.getD 10⟩

/-- One tool call of a planning reply (`assistantToolCallSchema`). -/
structure PlanCall where
  name : List Char
  arguments : Option Json

/-- A validated planning reply (`assistantPlannerResponseSchema`). -/
structure PlanResponse where
  assistant_reply : List Char
  tool_calls : List PlanCall

/-- Model of `assistantPlannerResponseSchema.safeParse` on a parsed value
(possibly `null`, which fails). -/
def assistantPlannerResponseSchemaParse (v : Option Json) : Option PlanResponse := do
  let f ←
    match v with
    | some (.obj f) => some f
    | _ => none
  let reply ← fStrB f "assistant_reply".data 1 6000
  let calls ←
    match jsonLookup f "tool_calls".data with
    | none => some []
    | some (.arr l) =>
      l.mapM (fun j =>
        match j with
        | Json.obj cf => do
          let name ← fStrB cf "name".data 1 80
          let arguments ←
            match jsonLookup cf "arguments".data with
            | none => some none
            | some a => some (some a)
          pure (⟨name, arguments⟩ : PlanCall)
        | _ => none)
    | some _ => none
  pure ⟨reply, calls⟩

/-- Model of `assistantFinalResponseSchema.safeParse`. -/
def assistantFinalResponseSchemaParse (v : Option Json) : Option (List Char) :=
  match v with
  | some (.obj f) => fStrB f "reply".data 1 6000
  | _ => none

/-- Task projection of `buildAssistantSnapshot`. -/
structure TaskBrief where
  id : List Char
  name : List Char
  priority : List Char
  category : List Char
  deadline : List Char
  deadlineTime : List Char
  durationHours : ℚ
  completed : Bool
deriving DecidableEq

/-- Goal projection of `buildAssistantSnapshot`. -/
structure GoalBrief where
  id : List Char
  name : List Char
  level : List Char
  parentId : List Char
  startDate : List Char
  endDate : List Char
  manualProgress : Int
  completed : Bool
deriving DecidableEq

/-- Schedule projection of `buildAssistantSnapshot`. -/
structure SchedBrief where
  kind : List Char
  taskId : List Char
  startMs : Int
  endMs : Int
  reason : List Char
deriving DecidableEq

/-- Fixed-block projection of `buildAssistantSnapshot`. -/
structure FixedBrief where
  label : List Char
  startMs : Int
  endMs : Int
  category : List Char
deriving DecidableEq

/-- Habit projection of `buildAssistantSnapshot`. -/
structure HabitBrief where
  id : List Char
  name : List Char
  time : List Char
  description : List Char
deriving DecidableEq

/-- The read-only data snapshot handed to the model
(`buildAssistantSnapshot`, server.js:1830). -/
structure Snapshot where
  profile : Option Profile
  tasks : List TaskBrief
  goals : List GoalBrief
  schedule : List SchedBrief
  fixedBlocks : List FixedBrief
  dailyHabits : List HabitBrief
deriving DecidableEq

/-- `buildAssistantSnapshot` (server.js:1830): size-capped, field-projected
view of the planner state. -/
def buildAssistantSnapshot (data : AxisData) : Snapshot where
  profile := data.profile
  tasks := (data.tasks.take 120).map (fun t =>
    ⟨t.id, t.task_name.take 180, t.task_priority, t.task_category, t.task_deadline,
     t.task_deadline_time, t.task_duration_hours, t.completed⟩)
  goals := (data.goals.take 120).map (fun g =>
    ⟨g.id, g.name.take 180, g.level, (g.parentId.getD []), g.startDate, g.endDate,
     g.manualProgress, g.completed⟩)
  schedule := (data.schedule.take 200).map (fun b => ⟨b.kind, b.taskId, b.startMs, b.endMs, []⟩)
  fixedBlocks := (data.fixedBlocks.take 200).map (fun b =>
    ⟨(if b.label = [] then "Fixed".data else b.label).take 80, b.startMs, b.endMs, b.category⟩)
  dailyHabits := (data.dailyHabits.take 80).map (fun h =>
    ⟨h.id, h.name.take 120, h.time.take 40, h.description.take 180⟩)

/-- Item of the `list_tasks` tool result. -/
structure ListedTask where
  id : List Char
  task_name : List Char
  task_priority : List Char
  task_category : List Char
  task_deadline : List Char
  task_deadline_time : List Char
  task_duration_hours : ℚ
  completed : Bool
deriving DecidableEq

/-- Successful tool-result payloads of `executeAssistantTool`. -/
inductive ToolOk where
  | snapshot (s : Snapshot)
  | taskList (l : List ListedTask)
  | task (t : Task)
  | goal (g : Goal)
  | habit (h : Habit)
  | success
  | blocksAdded (n : Nat)
  | calendarLinks (token subscribeUrl webcalUrl : List Char)
deriving DecidableEq

/-- Replace the first element satisfying `p`, as a `findIndex` followed by
an indexed write does. -/
def replaceFirstWhere {α : Type} (p : α → Bool) (a : α) : List α → List α
  | [] => []
  | x :: xs => if p x then a :: xs else x :: replaceFirstWhere p a xs

/-- The field-level task patch of the `update_task` branch
(server.js:2801-2816). -/
def applyTaskPatch (env : Env) (task : Task) (patch : TaskPatchArgs) : Task :=
  let t1 :=
    match patch.task_name with
    | some n => { task with task_name := jsTrim n }
    | none => task
  let t2 :=
    match patch.task_priority with
    | some p =>
      let n := normalizeTaskPriority p
      if n ≠ [] then { t1 with task_priority := n } else t1
    | none => t1
  let t3 :=
    match patch.task_category with
    | some c => { t2 with task_category := normalizeTaskCategory c }
    | none => t2
  let t4 :=
    match patch.task_deadline with
    | some d => { t3 with task_deadline := jsTrim d }
    | none => t3
  let t5 :=
    match patch.task_deadline_time with
    | some t => { t4 with task_deadline_time := jsTrim (if t = [] then "23:59".data else t) }
    | none => t4
  let t6 :=
    match patch.task_duration_hours with
    | some inner => { t5 with task_duration_hours := clampTaskDurationHours (some inner) }
    | none => t5
  let t7 :=
    match patch.computer_required with
    | some b => { t6 with computer_required := b }
    | none => t6
  let t8 :=
    match patch.completed with
    | some b =>
      { t7 with completed := b, completedAt := if b then some env.nowIso else none }
    | none => t7
  { t8 with updatedAt := some env.nowIso }

/-- The field-level goal patch of the `update_goal` branch
(server.js:2860-2876). -/
def applyGoalPatch (env : Env) (goal : Goal) (patch : GoalPatchArgs) : Goal :=
  let g1 :=
    match patch.name with
    | some n => { goal with name := jsTrim n }
    | none => goal
  let g2 :=
    match patch.level with
    | some l => { g1 with level := normalizeGoalLevel l }
    | none => g1
  let g3 :=
    match patch.parentId with
    | some inner =>
      { g2 with parentId :=
          match inner with
          | some s => if s = [] then none else some (jsTrim s)
          | none => none }
    | none => g2
  let g4 :=
    match patch.startDate with
    | some d => { g3 with startDate := jsTrim d }
    | none => g3
  let g5 :=
    match patch.endDate with
    | some d => { g4 with endDate := jsTrim d }
    | none => g4
  let g6 :=
    match patch.manualProgress with
    | some q => { g5 with manualProgress := clampGoalProgress (some q) }
    | none => g5
  let g7 :=
    match patch.milestones with
    | some ms => { g6 with milestones := normalizeGoalMilestones (some ms) }
    | none => g6
  let g8 :=
    match patch.completed with
    | some b =>
      { g7 with completed := b, completedAt := if b then env.nowIso else [] }
    | none => g7
  { g8 with updatedAt := some env.nowIso }

/-- Validation of one proposed rebalance block (server.js:2733-2746): the
`taskId` must name an unfinished task, both timestamps must parse, and the
end must be strictly after the start; everything else is discarded. -/
def validateRebalBlock (env : Env) (taskIds : List (List Char)) (b : Json) :
    Option SchedBlock :=
  match b with
  | .obj f =>
    match jsonLookup f "taskId".data with
    | some (.str tid) =>
      if taskIds.contains tid then
        match env.jsDate (jsonLookup f "start".data), env.jsDate (jsonLookup f "end".data) with
        | some s, some e => if e ≤ s then none else some ⟨"task".data, tid, s, e⟩
        | _, _ => none
      else none
    | _ => none
  | _ => none

/-- The ids of the unfinished tasks serialized into the rebalance prompt
(server.js:2636-2647, 2731), the set proposed block ids are checked
against. -/
def unfinishedTaskIds (data : AxisData) : List (List Char) :=
  (((data.tasks.filter (fun t => ¬ t.completed)).take 350).map (·.id))

/-- The `blocks` array decoded from the nested call's raw reply
(server.js:2725-2726): `safeParseJSONFromText(reply) || \x7b\x7d`, then
`parsed.blocks` when it is an array, else `[]`. -/
def rebalBlocksOf (reply : List Char) : List Json :=
  match (safeParseJSONFromText reply).getD (Json.obj []) with
  | .obj f =>
    match jsonLookup f "blocks".data with
    | some (.arr l) => l
    | _ => []
  | _ => []

/-- `aiRebalanceScheduleFromUserData` (server.js:2628-2753) with the nested
LLM call's raw reply supplied as `reply`: decode the proposed blocks,
validate each one, and fail when no blocks were proposed or none survive
validation. -/
def aiRebalanceScheduleFromUserData (env : Env) (data : AxisData) (reply : List Char) :
    Except (List Char) (List SchedBlock) :=
  let blocks := rebalBlocksOf reply
  if blocks.isEmpty then .error "AI returned no schedule blocks.".data
  else
    let normalized := blocks.filterMap (validateRebalBlock env (unfinishedTaskIds data))
    if normalized.isEmpty then .error "AI returned invalid schedule blocks.".data
    else .ok normalized

/-- `subscribeUrl.replace(/^https?:\/\//, "webcal://")`. -/
def toWebcal (url : List Char) : List Char :=
  if url.take 8 = "https://".data then "webcal://".data ++ url.drop 8
  else if url.take 7 = "http://".data then "webcal://".data ++ url.drop 7
  else url

/-- `executeAssistantTool` (server.js:2755-2972): one tool call against the
shaped planner state.  `nestedReply` is the raw reply of the nested LLM call
the `rebalance_schedule` branch issues.  An exception becomes `Except.error`
with the thrown message; the caller keeps its previous state in that case,
which is faithful because every branch throws before writing any field back
to the shared record. -/
def executeAssistantTool (env : Env) (nestedReply : List Char) (name : List Char)
    (args : Option Json) (data : AxisData) : Except (List Char) (AxisData × ToolOk) :=
  let toolName := jsTrim name
  if toolName = "get_snapshot".data then
    .ok (data, .snapshot (buildAssistantSnapshot data))
  else if toolName = "list_tasks".data then
    let includeCompleted :=
      match args with
      | some (.obj f) =>
        match jsonLookup f "includeCompleted".data with
        | some v => isTruthy v
        | none => false
      | _ => false
    .ok (data, .taskList
      (((data.tasks.filter (fun t => includeCompleted || ! t.completed)).take 500).map
        (fun t => ⟨t.id, t.task_name, t.task_priority, t.task_category, t.task_deadline,
                   t.task_deadline_time, t.task_duration_hours, t.completed⟩)))
  else if toolName = "create_task".data then
    match taskCreateSchemaParse args with
    | none => .error "Invalid create_task arguments".data
    | some parsed =>
      let task := createAxisTask env parsed
      .ok ({ data with tasks := data.tasks ++ [task] }, .task task)
  else if toolName = "update_task".data then
    match assistantUpdateTaskSchemaParse args with
    | none => .error "Invalid update_task arguments".data
    | some patch =>
      match data.tasks.find? (fun t => t.id = patch.id) with
      | none => .error "Task not found".data
      | some old =>
        let task := applyTaskPatch env old patch
        .ok ({ data with tasks := replaceFirstWhere (fun t => t.id = patch.id) task data.tasks },
             .task task)
  else if toolName = "delete_task".data then
    match idSchemaParse args with
    | none => .error "Invalid delete_task arguments".data
    | some id =>
      let tasks2 := data.tasks.filter (fun t => t.id ≠ id)
      let schedule2 :=
        data.schedule.filter (fun b => ¬ (b.kind = "task".data ∧ b.taskId = id))
      if tasks2.length = data.tasks.length then .error "Task not found".data
      else .ok ({ data with tasks := tasks2, schedule := schedule2 }, .success)
  else if toolName = "create_goal".data then
    match goalCreateSchemaParse args with
    | none => .error "Invalid create_goal arguments".data
    | some parsed =>
      let goal := createAxisGoal env parsed data.goals.length
      let goals2 := data.goals ++ [goal]
      let tasks2 :=
        if goal.level = "daily".data then ensureDailyGoalTask env data.tasks goal
        else data.tasks
      .ok ({ data with goals := goals2, tasks := tasks2 }, .goal goal)
  else if toolName = "update_goal".data then
    match goalUpdateSchemaParse args with
    | none => .error "Invalid update_goal arguments".data
    | some patch =>
      match data.goals.find? (fun g => g.id = patch.id) with
      | none => .error "Goal not found".data
      | some old =>
        let prevLevel := normalizeGoalLevel old.level
        let goal := applyGoalPatch env old patch
        let goals2 := replaceFirstWhere (fun g => g.id = patch.id) goal data.goals
        let ts :=
          if prevLevel = "daily".data ∧ goal.level ≠ "daily".data then
            removeDailyGoalTasks goal.id data.tasks data.schedule
          else if goal.level = "daily".data then
            (ensureDailyGoalTask env data.tasks goal, data.schedule)
          else (data.tasks, data.schedule)
        .ok ({ data with goals := goals2, tasks := ts.1, schedule := ts.2 }, .goal goal)
  else if toolName = "delete_goal".data then
    match idSchemaParse args with
    | none => .error "Invalid delete_goal arguments".data
    | some id =>
      match data.goals.find? (fun g => g.id = id) with
      | none => .error "Goal not found".data
      | some goal =>
        let goals2 := data.goals.filter (fun g => g.id ≠ id)
        let ts :=
          if goal.level = "daily".data then removeDailyGoalTasks id data.tasks data.schedule
          else (data.tasks, data.schedule)
        let slug := goalSlug goal.name
        let tasks3 :=
          if slug ≠ [] then
            ts.1.map (fun t =>
              let t1 := if t.goalId = some id then { t with goalId := none } else t
              if t1.task_category = slug then { t1 with task_category := "study".data } else t1)
          else ts.1
        .ok ({ data with goals := goals2, tasks := tasks3, schedule := ts.2 }, .success)
  else if toolName = "add_habit".data then
    match habitCreateSchemaParse args with
    | none => .error "Invalid add_habit arguments".data
    | some parsed =>
      let habit : Habit :=
        ⟨"habit_".data ++ natDigits env.nowMs ++ '_' :: env.nonce,
         jsTrim parsed.name, jsTrim parsed.time, jsTrim parsed.description, env.nowIso⟩
      .ok ({ data with dailyHabits := data.dailyHabits ++ [habit] }, .habit habit)
  else if toolName = "delete_habit".data then
    match idSchemaParse args with
    | none => .error "Invalid delete_habit arguments".data
    | some id =>
      let habits2 := data.dailyHabits.filter (fun h => h.id ≠ id)
      if habits2.length = data.dailyHabits.length then .error "Habit not found".data
      else .ok ({ data with dailyHabits := habits2 }, .success)
  else if toolName = "rebalance_schedule".data then
    match assistantRebalanceSchemaParse args with
    | none => .error "Invalid rebalance_schedule arguments".data
    | some _ =>
      match aiRebalanceScheduleFromUserData env data nestedReply with
      | .error e => .error e
      | .ok blocks =>
        .ok ({ data with schedule := blocks, lastRebalancedAt := some env.nowIso },
             .blocksAdded blocks.length)
  else if toolName = "get_calendar_links".data then
    match env.calendarToken with
    | none => .error "User not found".data
    | some token =>
      let subscribeUrl :=
        env.baseUrl ++ "/api/calendar/subscribe/".data ++ token ++ ".ics".data
      .ok (data, .calendarLinks token subscribeUrl (toWebcal subscribeUrl))
  else .error ("Unknown tool: ".data ++ toolName)

/-- One entry of the collected `toolResults` array. -/
inductive ToolResultEntry where
  | okRes (name : List Char) (result : ToolOk)
  | errRes (name : List Char) (error : List Char)
deriving DecidableEq

/-- The tool name of a result entry. -/
def ToolResultEntry.name : ToolResultEntry → List Char
  | .okRes n _ => n
  | .errRes n _ => n

/-- Whether a result entry is a success. -/
def ToolResultEntry.isOk : ToolResultEntry → Bool
  | .okRes _ _ => true
  | .errRes _ _ => false

/-- The read-only tool allowlist of the `changed` flag
(server.js:3108, 3216). -/
def READ_ONLY_TOOLS : List (List Char) :=
  ["get_snapshot".data, "list_tasks".data, "get_calendar_links".data]

/-- The tool-call loop shared by both agent endpoints
(server.js:3096-3114, 3203-3225): execute calls sequentially, skipping
empty names, isolating failures as error entries, threading the state only
through successes, and flagging `changed` on non-read-only successes.
`nestedAt i` is the raw nested-LLM reply available to the `i`-th call. -/
def runToolCalls (env : Env) (nestedAt : Nat → List Char) :
    List PlanCall → Nat → AxisData → List ToolResultEntry × AxisData × Bool
  | [], _, d => ([], d, false)
  | c :: rest, i, d =>
    let toolName := jsTrim c.name
    if toolName = [] then runToolCalls env nestedAt rest (i + 1) d
    else
      match executeAssistantTool env (nestedAt i) toolName c.arguments d with
      | .ok (d2, res) =>
        let next := runToolCalls env nestedAt rest (i + 1) d2
        (.okRes toolName res :: next.1, next.2.1,
          next.2.2 || ! READ_ONLY_TOOLS.contains toolName)
      | .error e =>
        let next := runToolCalls env nestedAt rest (i + 1) d
        (.errRes toolName e :: next.1, next.2.1, next.2.2)

/-- The ACTING stage: at most the first 6 planned tool calls enter the
loop (`planResult.data.tool_calls.slice(0, 6)`). -/
def actingPhase (env : Env) (nestedAt : Nat → List Char) (calls : List PlanCall)
    (data : AxisData) : List ToolResultEntry × AxisData × Bool :=
  runToolCalls env nestedAt (calls.take 6) 0 data

/-- The prompt builders of the agent endpoints, abstracted: they serialize
message, snapshot, history and tool results into prompt text
(`buildAssistantPlannerPrompt`, `buildAssistantFinalPrompt`,
`buildAssistantFinalTextPrompt`), and only the resulting strings feed the
LLM-call oracle. -/
structure PromptEnv where
  plannerPromptOf : List Char → Snapshot → List Char → List Char
  finalPromptOf : List Char → List ToolResultEntry → List Char → List Char
  finalTextPromptOf : List Char → List ToolResultEntry → List Char → List Char

/-- The planner system prompt of both agent endpoints. -/
def plannerSystem : List Char :=
  ("You are Axis Assistant, an agent that can update the user's planner via tools " ++
   "(tasks, goals, habits, schedule). Return strict JSON only. " ++
   "Do not wrap JSON in markdown fences.").data

/-- The final-reply system prompt of the non-streaming endpoint. -/
def finalSystem : List Char :=
  ("You are Axis Assistant. Produce the final user-facing message. " ++
   "Return strict JSON only. Do not wrap JSON in markdown fences.").data

/-- The planner `schemaHint` (server.js:3085). -/
def plannerSchemaHint : List Char :=
  "\x7b\"assistant_reply\":\"string\",\"tool_calls\":[\x7b\"name\":\"tool\",\"arguments\":\x7b...\x7d\x7d]\x7d".data

/-- The final-reply `schemaHint` (server.js:3127). -/
def finalSchemaHint : List Char :=
  "\x7b\"reply\":\"string\"\x7d".data

/-- Response of the non-streaming agent endpoint: the reply, the tool
results (present only when tool calls ran), the possibly mutated state, and
whether `saveUserData` was called. -/
structure AgentResponse where
  reply : List Char
  toolResults : Option (List ToolResultEntry)
  data : AxisData
  saved : Bool

/-- `POST /api/assistant/agent` (server.js:3061-3151) from the point where
the user record is loaded and shaped: plan via the repair pipeline (a hard
failure is the 502 error), run up to 6 tool calls, compose the final reply
through a second repair-pipeline call when any tool calls ran (falling back
to the planning reply if that call fails), append the turn to history, and
persist when a mutating tool succeeded or the history changed. -/
def agentPost (env : Env) (pe : PromptEnv) (oracle : LlmCall → List Char)
    (nestedAt : Nat → List Char) (message : List Char) (data0 : AxisData) :
    Except (Nat × List Char) AgentResponse :=
  let snapshot := buildAssistantSnapshot data0
  let history := formatAssistantHistory data0.assistantHistory
  let plan := callLlmWithJsonRepair oracle assistantPlannerResponseSchemaParse
    plannerSystem (pe.plannerPromptOf message snapshot history) (3 / 20) 900
    (some plannerSchemaHint)
  match plan.1 with
  | .failure _ _ => .error (502, "Assistant returned invalid JSON.".data)
  | .success _ planData _ =>
    let toolCalls := planData.tool_calls.take 6
    let acting := runToolCalls env nestedAt toolCalls 0 data0
    let reply :=
      if toolCalls.isEmpty then planData.assistant_reply
      else
        match (callLlmWithJsonRepair oracle assistantFinalResponseSchemaParse
            finalSystem (pe.finalPromptOf message acting.1 history) (1 / 5) 700
            (some finalSchemaHint)).1 with
        | .success _ r _ => r
        | .failure _ _ => planData.assistant_reply
    let hist := appendAssistantHistory acting.2.1.assistantHistory
      [⟨"user".data, message⟩, ⟨"assistant".data, reply⟩] env.nowMs
    .ok { reply := reply
          toolResults := if toolCalls.isEmpty then none else some acting.1
          data := { acting.2.1 with assistantHistory := hist.1 }
          saved := acting.2.2 || hist.2 }

/-- A thrown JavaScript error, as the retry logic observes it: `name`,
`code` and `message`. -/
structure JsError where
  name : List Char
  code : List Char
  message : List Char
deriving DecidableEq

/-- A generic `new Error(message)`. -/
def mkError (message : List Char) : JsError :=
  ⟨"Error".data, [], message⟩

/-- The error a rejected, aborted request throws. -/
def abortError : JsError :=
  ⟨"AbortError".data, [], "This operation was aborted".data⟩

/-- `parsed?.error?.message || default`, the upstream error-body decode each
adapter performs (non-string `message` values are out of scope and fall back
to the default). -/
def upstreamMessage (dflt body : List Char) : List Char :=
  match safeParseJSON body with
  | some (.obj f) =>
    match jsonLookup f "error".data with
    | some (.obj ef) =>
      match jsonLookup ef "message".data with
      | some (.str m) => if m = [] then dflt else m
      | _ => dflt
    | _ => dflt
  | _ => dflt

/-- The `Error` built from a non-2xx upstream response:
`` `${errorMessage} (status ${response.status})` ``. -/
def httpError (dflt : List Char) (status : Nat) (body : List Char) : JsError :=
  mkError (upstreamMessage dflt body ++ " (status ".data ++ natDigits status ++ ")".data)

/-- Case-sensitive test `/ETIMEDOUT|ENOTFOUND|socket/.test(msg)`. -/
def transientMsg (msg : List Char) : Bool :=
  containsSub msg "ETIMEDOUT".data || containsSub msg "ENOTFOUND".data ||
    containsSub msg "socket".data

/-- Case-insensitive test `/ETIMEDOUT|ENOTFOUND|socket/i.test(msg)`. -/
def transientMsgCI (msg : List Char) : Bool :=
  transientMsg (lowerStr msg) || containsSub (lowerStr msg) "etimedout".data ||
    containsSub (lowerStr msg) "enotfound".data || containsSub (lowerStr msg) "socket".data

/-- `callOpenAI`'s retryability test (server.js:656):
`err.code === "ECONNRESET" || err.name === "AbortError" ||
/ETIMEDOUT|ENOTFOUND|socket/.test(err.message)`. -/
def openAiRetryable (e : JsError) : Bool :=
  e.code = "ECONNRESET".data || e.name = "AbortError".data || transientMsg e.message

/-- The Gemini adapters' fetch-retryability test (server.js:734, 1192):
`fetchErr.code === "ECONNRESET" || /ETIMEDOUT|ENOTFOUND|socket/i.test(...)`. -/
def geminiRetryable (e : JsError) : Bool :=
  e.code = "ECONNRESET".data || transientMsgCI e.message

/-- One attempt's outcome for the non-streaming OpenAI adapter: a thrown
error (network failure or request timeout), a non-2xx response, a 2xx reply
with missing content, or a reply text. -/
inductive OaAttempt where
  | throwErr (e : JsError)
  | httpErr (status : Nat) (body : List Char)
  | emptyReply
  | success (reply : List Char)
deriving DecidableEq

/-- The retry skeleton of `callOpenAI` (server.js:576-667): up to
`MAX_RETRIES = 3` attempts; every thrown error (including the synthesized
upstream-status and missing-content errors, which the catch block also
sees) retries only when `openAiRetryable` holds and attempts remain, with a
`1000 * attempt` ms delay; the result records attempts used and delays. -/
def callOpenAIGo (outcomes : Nat → OaAttempt) :
    Nat → Nat → List Nat → Except JsError (List Char) × Nat × List Nat
  | attempt, 0, delays => (.error (mkError "unreachable".data), attempt - 1, delays)
  | attempt, remaining + 1, delays =>
    let handle : JsError → Except JsError (List Char) × Nat × List Nat := fun e =>
      if openAiRetryable e ∧ attempt < 3 then
        callOpenAIGo outcomes (attempt + 1) remaining (delays ++ [1000 * attempt])
      else (.error e, attempt, delays)
    match outcomes attempt with
    | .throwErr e => handle e
    | .httpErr status body => handle (httpError "Upstream OpenAI API error.".data status body)
    | .emptyReply => handle (mkError "OpenAI reply missing content".data)
    | .success reply => (.ok (jsTrim reply), attempt, delays)

/-- `callOpenAI` entered at attempt 1. -/
def callOpenAI (outcomes : Nat → OaAttempt) : Except JsError (List Char) × Nat × List Nat :=
  callOpenAIGo outcomes 1 3 []

/-- One attempt's outcome for the non-streaming Gemini adapter. -/
inductive GemAttempt where
  | fetchThrow (e : JsError)
  | httpErr (status : Nat) (body : List Char)
  | safetyBlock (reason : List Char)
  | success (reply : List Char)
deriving DecidableEq

/-- The retry skeleton of `callGemini` (server.js:670-802): transient fetch
errors and 5xx responses retry with `1000 * attempt` ms delays, a safety
block throws immediately, and an empty 2xx reply (the known upstream bug)
retries like a transient error before surfacing
`Gemini reply missing content`. -/
def callGeminiGo (outcomes : Nat → GemAttempt) :
    Nat → Nat → List Nat → Option JsError → Except JsError (List Char) × Nat × List Nat
  | attempt, 0, delays, lastErr =>
    (.error (lastErr.getD (mkError "Gemini request failed after retries".data)),
     attempt - 1, delays)
  | attempt, remaining + 1, delays, _ =>
    match outcomes attempt with
    | .fetchThrow e =>
      if geminiRetryable e ∧ attempt < 3 then
        callGeminiGo outcomes (attempt + 1) remaining (delays ++ [1000 * attempt]) (some e)
      else (.error e, attempt, delays)
    | .httpErr status body =>
      let e := httpError "Upstream Gemini API error.".data status body
      if (500 ≤ status ∧ status < 600) ∧ attempt < 3 then
        callGeminiGo outcomes (attempt + 1) remaining (delays ++ [1000 * attempt]) (some e)
      else (.error e, attempt, delays)
    | .safetyBlock reason =>
      (.error (mkError ("Gemini blocked the prompt: ".data ++ reason)), attempt, delays)
    | .success reply =>
      if reply = [] then
        let e := mkError "Gemini reply missing content".data
        if attempt < 3 then
          callGeminiGo outcomes (attempt + 1) remaining (delays ++ [1000 * attempt]) (some e)
        else (.error e, attempt, delays)
      else (.ok (jsTrim reply), attempt, delays)

/-- `callGemini` entered at attempt 1. -/
def callGemini (outcomes : Nat → GemAttempt) : Except JsError (List Char) × Nat × List Nat :=
  callGeminiGo outcomes 1 3 [] none

/-- One fetch's outcome for the DeepSeek adapter: a thrown fetch error, a
2xx response with or without reply content, or a non-2xx response. -/
inductive DsAttempt where
  | fetchThrow (e : JsError)
  | httpOk (reply : Option (List Char))
  | httpErr (status : Nat) (body : List Char)
deriving DecidableEq

/-- The `/response_format|json_object|response format/i` test of the
DeepSeek JSON-mode fallback. -/
def responseFormatComplaint (msg : List Char) : Bool :=
  containsSub (lowerStr msg) "response_format".data ||
    containsSub (lowerStr msg) "json_object".data ||
    containsSub (lowerStr msg) "response format".data

/-- Decode of one successful or failed DeepSeek response. -/
def deepSeekFinish (o : DsAttempt) (fetches : Nat) :
    Except JsError (List Char) × Nat :=
  match o with
  | .fetchThrow e => (.error e, fetches)
  | .httpOk (some reply) => (.ok (jsTrim reply), fetches)
  | .httpOk none => (.error (mkError "DeepSeek reply missing content".data), fetches)
  | .httpErr status body =>
    (.error (httpError "Upstream DeepSeek API error.".data status body), fetches)

/-- The control skeleton of `callDeepSeek` (server.js:434-523): a single
fetch with no retry on thrown network errors and no backoff; the only second
fetch is the JSON-mode fallback, taken when `expectJSON` was set and the
upstream error complains about the response-format feature.  The result
records the number of fetches issued. -/
def callDeepSeek (expectJSON : Bool) (outcomes : Nat → DsAttempt) :
    Except JsError (List Char) × Nat :=
  match outcomes 0 with
  | .fetchThrow e => (.error e, 1)
  | .httpOk r => deepSeekFinish (.httpOk r) 1
  | .httpErr status body =>
    if expectJSON ∧ responseFormatComplaint (upstreamMessage body body) then
      deepSeekFinish (outcomes 1) 2
    else deepSeekFinish (.httpErr status body) 1

/-- One attempt's outcome for a streaming adapter call: a thrown fetch
error, a non-2xx response, a safety block raised mid-stream, a client abort
mid-stream after some token deltas were emitted, or a completed body whose
emitted deltas are `tokens` (`hadContent` records whether any chunk carried
text, which can hold even when every delta is empty). -/
inductive StreamAttempt where
  | fetchThrow (e : JsError)
  | httpErr (status : Nat) (body : List Char)
  | safetyBlock (tokensBefore : List (List Char)) (reason : List Char)
  | readAborted (tokensBefore : List (List Char))
  | completed (tokens : List (List Char)) (hadContent : Bool)
deriving DecidableEq

/-- Result of one streaming adapter call: the returned text or thrown
error, the token deltas handed to `onToken` (in order), the number of fetch
attempts, and the backoff delays slept. -/
structure StreamCallResult where
  result : Except JsError (List Char)
  emitted : List (List Char)
  attemptsUsed : Nat
  delays : List Nat

/-- `callDeepSeekStream` (server.js:948-1009): one fetch, no retry; an
abort mid-read propagates as an `AbortError`. -/
def callDeepSeekStream (outcomes : Nat → StreamAttempt) : StreamCallResult :=
  match outcomes 1 with
  | .fetchThrow e => ⟨.error e, [], 1, []⟩
  | .httpErr status body =>
    ⟨.error (httpError "Upstream DeepSeek API error.".data status body), [], 1, []⟩
  | .safetyBlock ts reason =>
    ⟨.error (mkError ("Gemini blocked the prompt: ".data ++ reason)), ts, 1, []⟩
  | .readAborted ts => ⟨.error abortError, ts, 1, []⟩
  | .completed ts _ => ⟨.ok ts.flatten, ts, 1, []⟩

/-- `callOpenAIStream` (server.js:1011-1123): one fetch, no retry. -/
def callOpenAIStream (outcomes : Nat → StreamAttempt) : StreamCallResult :=
  match outcomes 1 with
  | .fetchThrow e => ⟨.error e, [], 1, []⟩
  | .httpErr status body =>
    ⟨.error (httpError "Upstream OpenAI-compatible API error.".data status body), [], 1, []⟩
  | .safetyBlock ts reason =>
    ⟨.error (mkError ("Gemini blocked the prompt: ".data ++ reason)), ts, 1, []⟩
  | .readAborted ts => ⟨.error abortError, ts, 1, []⟩
  | .completed ts _ => ⟨.ok ts.flatten, ts, 1, []⟩

/-- The retry skeleton of `callGeminiStream` (server.js:1125-1273): an
aborted fetch throws without retrying (server.js:1190); other transient
fetch errors and 5xx responses retry up to 3 attempts with `1000 * attempt`
ms delays; a mid-read abort or safety block propagates out of the attempt
loop at once; an empty completed stream (the known upstream bug) retries
like a transient error. -/
def callGeminiStreamGo (outcomes : Nat → StreamAttempt) :
    Nat → Nat → List (List Char) → List Nat → Option JsError → StreamCallResult
  | attempt, 0, em, delays, lastErr =>
    ⟨.error (lastErr.getD (mkError "Gemini streaming request failed after retries".data)),
     em, attempt - 1, delays⟩
  | attempt, remaining + 1, em, delays, _ =>
    match outcomes attempt with
    | .fetchThrow e =>
      if e.name = "AbortError".data then ⟨.error e, em, attempt, delays⟩
      else if geminiRetryable e ∧ attempt < 3 then
        callGeminiStreamGo outcomes (attempt + 1) remaining em
          (delays ++ [1000 * attempt]) (some e)
      else ⟨.error e, em, attempt, delays⟩
    | .httpErr status body =>
      let e := httpError "Upstream Gemini API error.".data status body
      if (500 ≤ status ∧ status < 600) ∧ attempt < 3 then
        callGeminiStreamGo outcomes (attempt + 1) remaining em
          (delays ++ [1000 * attempt]) (some e)
      else ⟨.error e, em, attempt, delays⟩
    | .safetyBlock ts reason =>
      ⟨.error (mkError ("Gemini blocked the prompt: ".data ++ reason)), em ++ ts,
       attempt, delays⟩
    | .readAborted ts => ⟨.error abortError, em ++ ts, attempt, delays⟩
    | .completed ts hadContent =>
      if ts.flatten = [] ∧ hadContent = false then
        let e := mkError "Gemini streaming reply empty".data
        if attempt < 3 then
          callGeminiStreamGo outcomes (attempt + 1) remaining (em ++ ts)
            (delays ++ [1000 * attempt]) (some e)
        else ⟨.error e, em ++ ts, attempt, delays⟩
      else ⟨.ok ts.flatten, em ++ ts, attempt, delays⟩

/-- `callGeminiStream` entered at attempt 1. -/
def callGeminiStream (outcomes : Nat → StreamAttempt) : StreamCallResult :=
  callGeminiStreamGo outcomes 1 3 [] [] none

/-- `callLlmStream` (server.js:1275-1280): re-resolve the provider and
dispatch to the matching streaming adapter. -/
def callLlmStream (penv : ProviderEnv) (requestedProvider : List Char)
    (outcomes : Nat → StreamAttempt) : StreamCallResult :=
  let provider := resolveProviderForRequest penv requestedProvider
  if provider = "openai".data then callOpenAIStream outcomes
  else if provider = "gemini".data then callGeminiStream outcomes
  else callDeepSeekStream outcomes

/-- Events of the outbound SSE stream of the agent endpoint. -/
inductive SseEvent where
  | meta (provider : List Char)
  | statusEv (stage : List Char) (tool : Option (List Char)) (ok : Option Bool)
  | token (t : List Char)
  | result (reply : List Char) (toolResults : List ToolResultEntry) (data : AxisData)
  | errorEv (msg : List Char)
  | done
deriving DecidableEq

/-- Whether an event is the `done` terminator. -/
def SseEvent.isDone : SseEvent → Bool
  | .done => true
  | _ => false

/-- Whether an event is a `token` event. -/
def SseEvent.isToken : SseEvent → Bool
  | .token _ => true
  | _ => false

/-- The `tool_start`/`tool_done` status events one executed call emits
(server.js:3206, 3219, 3223); the error payload of a failed `tool_done`
lives in the matching result entry. -/
def toolStatusEvents (results : List ToolResultEntry) : List SseEvent :=
  results.flatMap (fun r =>
    [.statusEv "tool_start".data (some r.name) none,
     .statusEv "tool_done".data (some r.name) (some r.isOk)])

/-- `POST /api/assistant/agent/stream` (server.js:3153-3274) from the point
where the user record is loaded and shaped, returning the emitted event
trace, the final in-memory state, and whether `saveUserData` ran.  The
RESPONDING stream call's attempt outcomes are `streamOutcomes`; a thrown
`AbortError` reaches the catch block, which emits a single `error` event
with `Client disconnected.` and ends the stream with no `done` event and no
history append. -/
def agentStreamPost (env : Env) (penv : ProviderEnv) (pe : PromptEnv)
    (oracle : LlmCall → List Char) (nestedAt : Nat → List Char)
    (streamOutcomes : Nat → StreamAttempt) (message : List Char) (data0 : AxisData) :
    List SseEvent × AxisData × Bool :=
  let provider := resolveProviderForUserData penv data0.aiProvider
  let snapshot := buildAssistantSnapshot data0
  let history := formatAssistantHistory data0.assistantHistory
  let pre : List SseEvent := [.meta provider, .statusEv "planning".data none none]
  let plan := callLlmWithJsonRepair oracle assistantPlannerResponseSchemaParse
    plannerSystem (pe.plannerPromptOf message snapshot history) (3 / 20) 900
    (some plannerSchemaHint)
  match plan.1 with
  | .failure _ _ =>
    (pre ++ [.errorEv "Assistant returned invalid JSON.".data], data0, false)
  | .success _ planData _ =>
    let toolCalls := planData.tool_calls.take 6
    let acting := runToolCalls env nestedAt toolCalls 0 data0
    let preActing := pre ++ [.statusEv "acting".data none none] ++ toolStatusEvents acting.1
    if toolCalls.isEmpty then
      let reply := planData.assistant_reply
      let hist := appendAssistantHistory acting.2.1.assistantHistory
        [⟨"user".data, message⟩, ⟨"assistant".data, reply⟩] env.nowMs
      let data2 := { acting.2.1 with assistantHistory := hist.1 }
      (preActing ++ [.token reply, .result reply acting.1 data2, .done], data2,
       acting.2.2 || hist.2)
    else
      let preResp := preActing ++ [.statusEv "responding".data none none]
      let sc := callLlmStream penv provider streamOutcomes
      let tokenEvents := sc.emitted.map SseEvent.token
      match sc.result with
      | .ok reply =>
        let hist := appendAssistantHistory acting.2.1.assistantHistory
          [⟨"user".data, message⟩, ⟨"assistant".data, reply⟩] env.nowMs
        let data2 := { acting.2.1 with assistantHistory := hist.1 }
        (preResp ++ tokenEvents ++ [.result reply acting.1 data2, .done], data2,
         acting.2.2 || hist.2)
      | .error e =>
        let msg :=
          if e.name = "AbortError".data then "Client disconnected.".data else e.message
        (preResp ++ tokenEvents ++ [.errorEv msg], acting.2.1, false)

theorem foldl_histPush (now : Nat) (entries : List RawHistEntry) :
    ∀ (h : List HistEntry) (b : Bool),
      (entries.foldl (histPush now) (h, b)).1 = h ++ histProcessed now entries := by
  induction entries with
  | nil => intro h b; simp [histProcessed]
  | cons e rest ih =>
    intro h b
    by_cases he : jsTrim e.content = [] <;>
      simp [histPush, histProcessed, he, ih, List.filterMap_cons]

theorem appendAssistantHistory_fst (h : List HistEntry) (entries : List RawHistEntry)
    (now : Nat) :
    (appendAssistantHistory h entries now).1 =
      (h ++ histProcessed now entries).drop
        ((h ++ histProcessed now entries).length - ASSISTANT_HISTORY_LIMIT) := by
  show (let pushed := List.foldl (histPush now) (h, false) entries
    (if pushed.1.length > ASSISTANT_HISTORY_LIMIT then
        pushed.1.drop (pushed.1.length - ASSISTANT_HISTORY_LIMIT)
      else pushed.1, pushed.2)).1 = _
  simp only [foldl_histPush]
  by_cases hl : (h ++ histProcessed now entries).length > ASSISTANT_HISTORY_LIMIT
  · rw [if_pos hl]
  · rw [if_neg hl]
    have h0 : (h ++ histProcessed now entries).length - ASSISTANT_HISTORY_LIMIT = 0 := by
      omega
    rw [h0, List.drop_zero]

/-- C4: after any append, the conversation history holds at most 20
entries; the surviving entries are exactly the newest ones of the old
history followed by the pushed entries in order (FIFO eviction of the
oldest, insertion order preserved); and the prompt context built by
`formatAssistantHistory` depends only on the 12 most recent entries. -/
theorem assistantHistory_bound_fifo_and_context :
    ∀ (h : List HistEntry) (entries : List RawHistEntry) (now : Nat),
      ((appendAssistantHistory h entries now).1).length ≤ ASSISTANT_HISTORY_LIMIT
      ∧ (appendAssistantHistory h entries now).1 =
          (h ++ histProcessed now entries).drop
            ((h ++ histProcessed now entries).length - ASSISTANT_HISTORY_LIMIT)
      ∧ ∀ (older recent : List HistEntry), ASSISTANT_HISTORY_CONTEXT ≤ recent.length →
          formatAssistantHistory (older ++ recent) = formatAssistantHistory recent := by
  intro h entries now
  refine ⟨?_, appendAssistantHistory_fst h entries now, ?_⟩
  · rw [appendAssistantHistory_fst]
    rw [List.length_drop]
    have := (h ++ histProcessed now entries).length
    omega
  · intro older recent hrec
    unfold formatAssistantHistory
    have hne : recent ≠ [] := by
      intro hh
      rw [hh] at hrec
      simp [ASSISTANT_HISTORY_CONTEXT] at hrec
    have hne2 : older ++ recent ≠ [] := by
      intro hh
      rcases List.append_eq_nil.mp hh with ⟨-, h2⟩
      exact hne h2
    rw [if_neg hne, if_neg hne2]
    congr 1
    congr 1
    have harith : (older ++ recent).length - ASSISTANT_HISTORY_CONTEXT =
        older.length + (recent.length - ASSISTANT_HISTORY_CONTEXT) := by
      rw [List.length_append]
      omega
    rw [harith, List.drop_append]

/-- Witness for C4 at concrete inputs: a 21-entry history plus two pushed
turns truncates to exactly the newest 20, and a 13th older entry does not
change the prompt context. -/
theorem assistantHistory_bound_fifo_and_context_witness :
    (((appendAssistantHistory
        (List.replicate 21 (⟨Role.user, ['x'], 0⟩ : HistEntry))
        [⟨"user".data, "hi".data⟩, ⟨"assistant".data, "ok".data⟩] 5).1).length ≤
          ASSISTANT_HISTORY_LIMIT)
    ∧ ASSISTANT_HISTORY_CONTEXT ≤ (List.replicate 12 (⟨Role.user, ['x'], 0⟩ : HistEntry)).length
    ∧ formatAssistantHistory
        ([⟨Role.assistant, ['y'], 3⟩] ++ List.replicate 12 (⟨Role.user, ['x'], 0⟩ : HistEntry)) =
        formatAssistantHistory (List.replicate 12 (⟨Role.user, ['x'], 0⟩ : HistEntry)) := by
  refine ⟨(assistantHistory_bound_fifo_and_context _ _ 5).1, by decide, ?_⟩
  exact (assistantHistory_bound_fifo_and_context [] [] 5).2.2 _ _ (by decide)

theorem bool_eq_false {b : Bool} (h : ¬ b = true) : b = false := by
  cases b
  · rfl
  · exact absurd rfl h

theorem contains_iff_mem {α : Type} [BEq α] [LawfulBEq α] (l : List α) (a : α) :
    l.contains a = true ↔ a ∈ l := by
  simp [List.contains]

theorem mem_lexInsert (x y : List Char) (l : List (List Char)) :
    x ∈ lexInsert y l ↔ x = y ∨ x ∈ l := by
  induction l with
  | nil => simp [lexInsert]
  | cons z zs ih =>
    by_cases hz : lexLe y z = true
    · simp [lexInsert, hz]
    · simp only [lexInsert, if_neg hz, List.mem_cons, ih]
      tauto

theorem mem_lexSort (x : List Char) (l : List (List Char)) :
    x ∈ lexSort l ↔ x ∈ l := by
  induction l with
  | nil => simp [lexSort]
  | cons z zs ih => simp [lexSort, mem_lexInsert, ih]

theorem listConfiguredProviders_all (env : ProviderEnv) :
    ∀ x ∈ listConfiguredProviders env, isProviderConfigured env x = true := by
  intro x hx
  rw [listConfiguredProviders, mem_lexSort] at hx
  exact (List.mem_filter.mp hx).2

theorem find?_eq_head?_of_all {α : Type} (p : α → Bool) (l : List α)
    (h : ∀ x ∈ l, p x = true) : l.find? p = l.head? := by
  cases l with
  | nil => rfl
  | cons x xs => simp [List.find?, h x (by simp)]

theorem shapeAiProvider_supported (setting : Option (List Char)) (t : List Char)
    (h : shapeAiProvider setting = some t) : t ∈ SUPPORTED_LLM_PROVIDERS := by
  rcases setting with - | s
  · simp [shapeAiProvider] at h
  · simp only [shapeAiProvider] at h
    by_cases hs : SUPPORTED_LLM_PROVIDERS.contains (lowerStr (jsTrim s)) = true
    · rw [if_pos hs] at h
      cases h
      exact (contains_iff_mem _ _).mp hs
    · rw [if_neg hs] at h
      exact absurd h (by simp)

theorem supported_normalized (t : List Char) (h : t ∈ SUPPORTED_LLM_PROVIDERS) :
    normalizeProvider t = t ∧ t ≠ [] := by
  simp only [SUPPORTED_LLM_PROVIDERS, List.mem_cons, List.not_mem_nil, or_false] at h
  rcases h with h | h | h <;> subst h <;> exact ⟨by decide, by decide⟩

theorem normalizeProvider_supported (r : List Char) (h : normalizeProvider r ≠ []) :
    normalizeProvider r ∈ SUPPORTED_LLM_PROVIDERS := by
  unfold normalizeProvider at h ⊢
  by_cases hs : SUPPORTED_LLM_PROVIDERS.contains (lowerStr (jsTrim r)) = true
  · rw [if_pos hs]
    exact (contains_iff_mem _ _).mp hs
  · rw [if_neg hs] at h
    exact absurd rfl h

theorem envDefaultProvider_supported (env : ProviderEnv) :
    envDefaultProvider env ∈ SUPPORTED_LLM_PROVIDERS := by
  unfold envDefaultProvider
  by_cases h : normalizeProvider env.llmProvider = []
  · rw [if_pos h]
    decide
  · rw [if_neg h]
    exact normalizeProvider_supported _ h

theorem userSelectedProvider_none (setting : Option (List Char))
    (h : shapeAiProvider setting = none) : userSelectedProvider setting = [] := by
  unfold userSelectedProvider
  rw [h]

theorem userSelectedProvider_some (setting : Option (List Char)) (t : List Char)
    (h : shapeAiProvider setting = some t) :
    userSelectedProvider setting = t ∧ t ≠ [] := by
  obtain ⟨hn, hne⟩ := supported_normalized t (shapeAiProvider_supported setting t h)
  refine ⟨?_, hne⟩
  unfold userSelectedProvider
  rw [h]
  exact hn

theorem providerFallbackChain (env : ProviderEnv) (fb : List Char) :
    (if isProviderConfigured env (envDefaultProvider env) = true then envDefaultProvider env
     else
       match listConfiguredProviders env with
       | c :: _ => c
       | [] => fb) =
    ((envDefaultProvider env :: listConfiguredProviders env).find?
        (isProviderConfigured env)).getD fb := by
  cases h2 : isProviderConfigured env (envDefaultProvider env) with
  | true => simp [List.find?_cons_of_pos _ h2]
  | false =>
    rw [if_neg (by simp [h2]), List.find?_cons_of_neg _ (by simp [h2]),
      find?_eq_head?_of_all _ _ (listConfiguredProviders_all env)]
    cases listConfiguredProviders env <;> simp

/-- C3: both resolvers return the first configured candidate in precedence
order — the requested name (for `resolveProviderForRequest`) or the
per-user preference (for `resolveProviderForUserData`), then the
environment default, then the lexicographically first configured provider —
and when nothing at all is configured they still return a deterministic
name: the environment default for the per-user resolver (§4.3), and the
normalized requested name (falling back to the environment default when the
requested name is invalid) for the per-request resolver (§8). -/
theorem provider_resolution_precedence :
    ∀ (env : ProviderEnv) (requested : List Char) (setting : Option (List Char)),
      (resolveProviderForRequest env requested =
        (((if normalizeProvider requested ≠ [] then [normalizeProvider requested] else []) ++
            envDefaultProvider env :: listConfiguredProviders env).find?
              (isProviderConfigured env)).getD
          (if normalizeProvider requested ≠ [] then normalizeProvider requested
           else envDefaultProvider env))
      ∧ (resolveProviderForUserData env setting =
        (((if userSelectedProvider setting ≠ [] then [userSelectedProvider setting] else []) ++
            envDefaultProvider env :: listConfiguredProviders env).find?
              (isProviderConfigured env)).getD (envDefaultProvider env))
      ∧ (listConfiguredProviders env = [] →
          resolveProviderForUserData env setting = envDefaultProvider env
          ∧ resolveProviderForRequest env requested =
              (if normalizeProvider requested ≠ [] then normalizeProvider requested
               else envDefaultProvider env)) := by
  intro env requested setting
  have hsel : userSelectedProvider setting ≠ [] →
      userSelectedProvider setting ∈ SUPPORTED_LLM_PROVIDERS := by
    intro hne
    cases hset : shapeAiProvider setting with
    | none => exact absurd (userSelectedProvider_none setting hset) hne
    | some t =>
      rw [(userSelectedProvider_some setting t hset).1]
      exact shapeAiProvider_supported setting t hset
  have hreq : resolveProviderForRequest env requested =
      (((if normalizeProvider requested ≠ [] then [normalizeProvider requested] else []) ++
          envDefaultProvider env :: listConfiguredProviders env).find?
            (isProviderConfigured env)).getD
        (if normalizeProvider requested ≠ [] then normalizeProvider requested
         else envDefaultProvider env) := by
    show (if normalizeProvider requested ≠ [] ∧
            isProviderConfigured env (normalizeProvider requested) then
        normalizeProvider requested
      else
        if isProviderConfigured env (envDefaultProvider env) = true then envDefaultProvider env
        else
          match listConfiguredProviders env with
          | c :: _ => c
          | [] =>
            if normalizeProvider requested ≠ [] then normalizeProvider requested
            else envDefaultProvider env) = _
    by_cases h1 : normalizeProvider requested ≠ []
    · simp only [if_pos h1]
      by_cases h2 : isProviderConfigured env (normalizeProvider requested) = true
      · rw [if_pos ⟨h1, h2⟩]
        simp [List.find?_cons_of_pos _ h2]
      · rw [List.cons_append, List.nil_append,
          List.find?_cons_of_neg _ (by simp [bool_eq_false h2]),
          if_neg (fun hc => h2 hc.2), providerFallbackChain]
    · simp only [if_neg h1]
      rw [List.nil_append, if_neg (fun hc => h1 hc.1), providerFallbackChain]
  have huser : resolveProviderForUserData env setting =
      (((if userSelectedProvider setting ≠ [] then [userSelectedProvider setting] else []) ++
          envDefaultProvider env :: listConfiguredProviders env).find?
            (isProviderConfigured env)).getD (envDefaultProvider env) := by
    show (if userSelectedProvider setting ≠ [] ∧
            isProviderConfigured env (userSelectedProvider setting) then
        userSelectedProvider setting
      else
        if isProviderConfigured env (envDefaultProvider env) = true then envDefaultProvider env
        else
          match listConfiguredProviders env with
          | c :: _ => c
          | [] => envDefaultProvider env) = _
    by_cases h1 : userSelectedProvider setting ≠ []
    · simp only [if_pos h1]
      by_cases h2 : isProviderConfigured env (userSelectedProvider setting) = true
      · rw [if_pos ⟨h1, h2⟩]
        simp [List.find?_cons_of_pos _ h2]
      · rw [List.cons_append, List.nil_append,
          List.find?_cons_of_neg _ (by simp [bool_eq_false h2]),
          if_neg (fun hc => h2 hc.2), providerFallbackChain]
    · simp only [if_neg h1]
      rw [List.nil_append, if_neg (fun hc => h1 hc.1), providerFallbackChain]
  refine ⟨hreq, huser, ?_⟩
  intro hnone
  have hnotconf : ∀ t, t ∈ SUPPORTED_LLM_PROVIDERS →
      isProviderConfigured env t = false := by
    intro t hmem
    by_cases hc : isProviderConfigured env t = true
    · exfalso
      have : t ∈ listConfiguredProviders env := by
        rw [listConfiguredProviders, mem_lexSort, List.mem_filter]
        exact ⟨hmem, hc⟩
      rw [hnone] at this
      exact List.not_mem_nil t this
    · exact bool_eq_false hc
  constructor
  · rw [huser, hnone]
    by_cases h1 : userSelectedProvider setting ≠ []
    · simp only [if_pos h1]
      simp [List.find?, hnotconf _ (hsel h1),
        hnotconf _ (envDefaultProvider_supported env)]
    · simp only [if_neg h1]
      simp [List.find?, hnotconf _ (envDefaultProvider_supported env)]
  · rw [hreq, hnone]
    by_cases h1 : normalizeProvider requested ≠ []
    · simp only [if_pos h1]
      simp [List.find?, hnotconf _ (normalizeProvider_supported requested h1),
        hnotconf _ (envDefaultProvider_supported env)]
    · simp only [if_neg h1]
      simp [List.find?, hnotconf _ (envDefaultProvider_supported env)]

/-- Witness for C3 at a concrete configuration with no credentials at all:
the per-user resolver returns the environment default and the per-request
resolver returns the (valid) requested name. -/
theorem provider_resolution_precedence_witness :
    listConfiguredProviders ⟨"deepseek".data, [], [], []⟩ = []
    ∧ resolveProviderForUserData ⟨"deepseek".data, [], [], []⟩ none = "deepseek".data
    ∧ resolveProviderForRequest ⟨"deepseek".data, [], [], []⟩ "openai".data = "openai".data := by
  have h := (provider_resolution_precedence ⟨"deepseek".data, [], [], []⟩
    "openai".data none).2.2 (by decide)
  refine ⟨by decide, ?_, ?_⟩
  · rw [h.1]
    decide
  · rw [h.2]
    decide

/-- Specification-side scanner state transition: nesting depth, in-string
flag and escape flag, exactly as §4.4 step 3 describes the scan. -/
def scanStateStep (st : Int × Bool × Bool) (c : Char) : Int × Bool × Bool :=
  if st.2.1 then
    if st.2.2 then (st.1, true, false)
    else if c = '\\' then (st.1, true, true)
    else if c = '"' then (st.1, false, false)
    else (st.1, true, false)
  else if c = '"' then (st.1, true, false)
  else ((if c = '{' then st.1 + 1 else if c = '}' then st.1 - 1 else st.1), false, false)

/-- Whether the scan terminates on this character: outside a string, not a
string opener, and the updated depth is zero. -/
def scanExits (st : Int × Bool × Bool) (c : Char) : Bool :=
  !st.2.1 && !(c = '"') &&
    ((if c = '{' then st.1 + 1 else if c = '}' then st.1 - 1 else st.1) = 0)

/-- The characterization of a minimal balanced substring: walking the
string-aware depth scan from `st`, the depth first returns to zero exactly
at the final character. -/
def closesExactly : (Int × Bool × Bool) → List Char → Bool
  | _, [] => false
  | st, c :: rest =>
    if scanExits st c then rest.isEmpty
    else closesExactly (scanStateStep st c) rest

theorem scanBraces_closes (obj : List Char) :
    ∀ (st : Int × Bool × Bool) (suffix acc : List Char),
      closesExactly st obj = true →
      scanBraces (obj ++ suffix) st.1 st.2.1 st.2.2 acc = some (acc.reverse ++ obj) := by
  induction obj with
  | nil =>
    intro st suffix acc h
    simp [closesExactly] at h
  | cons c rest ih =>
    intro st suffix acc h
    obtain ⟨d, inS, esc⟩ := st
    rw [closesExactly] at h
    rw [List.cons_append]
    by_cases hex : scanExits (d, inS, esc) c = true
    · rw [if_pos hex] at h
      have hrest : rest = [] := by simpa using h
      subst hrest
      have hex2 := hex
      simp only [scanExits, Bool.and_eq_true, Bool.not_eq_true', decide_eq_true_eq] at hex2
      obtain ⟨⟨h1, h2⟩, h3⟩ := hex2
      have hc2 : ¬ c = '"' := by simpa using h2
      subst h1
      simp only [List.nil_append, scanBraces, Bool.false_eq_true, if_false]
      rw [if_neg hc2, if_pos h3]
      simp
    · rw [if_neg hex] at h
      have step := ih (scanStateStep (d, inS, esc) c) suffix (c :: acc) h
      cases inS with
      | true =>
        cases esc with
        | true =>
          show scanBraces (rest ++ suffix) d true false (c :: acc) = _
          simpa [scanStateStep] using step
        | false =>
          by_cases hc1 : c = '\\'
          · subst hc1
            show scanBraces (rest ++ suffix) d true true ('\\' :: acc) = _
            simpa [scanStateStep] using step
          · by_cases hc2 : c = '"'
            · subst hc2
              show scanBraces (rest ++ suffix) d false false ('"' :: acc) = _
              simpa [scanStateStep] using step
            · simp only [scanBraces, if_pos rfl, if_neg hc1, if_neg hc2]
              simpa [scanStateStep, hc1, hc2] using step
      | false =>
        by_cases hc2 : c = '"'
        · subst hc2
          show scanBraces (rest ++ suffix) d true false ('"' :: acc) = _
          simpa [scanStateStep] using step
        · have hd : ¬ ((if c = '{' then d + 1 else if c = '}' then d - 1 else d) = 0) := by
            intro h0
            exact hex (by simp [scanExits, hc2, h0])
          simp only [scanBraces, Bool.false_eq_true, if_false]
          rw [if_neg hc2, if_neg hd]
          simpa [scanStateStep, hc2] using step

theorem dropWhile_append_of_all {α : Type} (p : α → Bool) (l₁ l₂ : List α)
    (h : ∀ c ∈ l₁, p c = true) : (l₁ ++ l₂).dropWhile p = l₂.dropWhile p := by
  induction l₁ with
  | nil => simp
  | cons a l ih =>
    simp only [List.cons_append, List.dropWhile_cons, h a (by simp)]
    exact ih (fun c hc => h c (by simp [hc]))

/-- C7: for any text made of a prefix without `{`, a minimal balanced
object (per the string- and escape-aware depth scan `closesExactly`), and
arbitrary trailing text, `extractFirstJsonObject` returns exactly the
balanced object and ignores the trailing text. -/
theorem extractFirstJsonObject_minimal_balanced :
    ∀ (pre obj suffix : List Char),
      (∀ c ∈ pre, c ≠ '{') →
      obj.head? = some '{' →
      closesExactly (0, false, false) obj = true →
      extractFirstJsonObject (pre ++ (obj ++ suffix)) = some obj := by
  intro pre obj suffix hpre hhead hcloses
  cases obj with
  | nil => simp at hhead
  | cons c0 objt =>
    have hc0 : c0 = '{' := by simpa using hhead
    subst hc0
    unfold extractFirstJsonObject
    rw [List.cons_append,
      dropWhile_append_of_all _ pre _ (by intro c hc; simpa using hpre c hc),
      List.dropWhile_cons]
    rw [if_neg (by simp)]
    show scanBraces ('{' :: (objt ++ suffix)) 0 false false [] = _
    have hmain := scanBraces_closes ('{' :: objt) (0, false, false) suffix [] hcloses
    simpa using hmain

/-- Witness for C7 at the spec's example: `{"a":1} thanks!` extracts
exactly `{"a":1}`. -/
theorem extractFirstJsonObject_minimal_balanced_witness :
    ((∀ c ∈ ([] : List Char), c ≠ '{')
      ∧ ("\x7b\"a\":1\x7d".data).head? = some '{'
      ∧ closesExactly (0, false, false) "\x7b\"a\":1\x7d".data = true)
    ∧ extractFirstJsonObject "\x7b\"a\":1\x7d thanks!".data =
        some "\x7b\"a\":1\x7d".data := by
  refine ⟨⟨by decide, by decide, by decide⟩, ?_⟩
  exact extractFirstJsonObject_minimal_balanced [] "\x7b\"a\":1\x7d".data " thanks!".data
    (by decide) (by decide) (by decide)

theorem jsTrim_eq_rdropWhile (s : List Char) :
    jsTrim s = List.rdropWhile isWs (s.dropWhile isWs) := rfl

theorem dropWhile_rdropWhile_dropWhile (p : Char → Bool) (s : List Char) :
    List.dropWhile p (List.rdropWhile p (s.dropWhile p)) =
      List.rdropWhile p (s.dropWhile p) := by
  cases h : List.rdropWhile p (s.dropWhile p) with
  | nil => simp
  | cons a t =>
    have hp := List.rdropWhile_prefix p (s.dropWhile p)
    rw [h] at hp
    obtain ⟨u, hu⟩ := hp
    have hhead := List.head?_dropWhile_not p s
    rw [← hu] at hhead
    simp only [List.cons_append, List.head?_cons] at hhead
    simp [List.dropWhile_cons, hhead]

theorem jsTrim_idem (s : List Char) : jsTrim (jsTrim s) = jsTrim s := by
  rw [jsTrim_eq_rdropWhile, jsTrim_eq_rdropWhile, dropWhile_rdropWhile_dropWhile,
    List.rdropWhile_idempotent]

/-- The names of the twelve registered assistant tools, in dispatch order. -/
def ASSISTANT_TOOL_NAMES : List (List Char) :=
  ["get_snapshot".data, "list_tasks".data, "create_task".data, "update_task".data,
   "delete_task".data, "create_goal".data, "update_goal".data, "delete_goal".data,
   "add_habit".data, "delete_habit".data, "rebalance_schedule".data,
   "get_calendar_links".data]

theorem executeAssistantTool_unknown (env : Env) (r name : List Char) (args : Option Json)
    (d : AxisData) (h : jsTrim name ∉ ASSISTANT_TOOL_NAMES) :
    executeAssistantTool env r name args d =
      .error ("Unknown tool: ".data ++ jsTrim name) := by
  have h1 : ¬ (jsTrim name = "get_snapshot".data) := fun he => h (by rw [he]; decide)
  have h2 : ¬ (jsTrim name = "list_tasks".data) := fun he => h (by rw [he]; decide)
  have h3 : ¬ (jsTrim name = "create_task".data) := fun he => h (by rw [he]; decide)
  have h4 : ¬ (jsTrim name = "update_task".data) := fun he => h (by rw [he]; decide)
  have h5 : ¬ (jsTrim name = "delete_task".data) := fun he => h (by rw [he]; decide)
  have h6 : ¬ (jsTrim name = "create_goal".data) := fun he => h (by rw [he]; decide)
  have h7 : ¬ (jsTrim name = "update_goal".data) := fun he => h (by rw [he]; decide)
  have h8 : ¬ (jsTrim name = "delete_goal".data) := fun he => h (by rw [he]; decide)
  have h9 : ¬ (jsTrim name = "add_habit".data) := fun he => h (by rw [he]; decide)
  have h10 : ¬ (jsTrim name = "delete_habit".data) := fun he => h (by rw [he]; decide)
  have h11 : ¬ (jsTrim name = "rebalance_schedule".data) := fun he => h (by rw [he]; decide)
  have h12 : ¬ (jsTrim name = "get_calendar_links".data) := fun he => h (by rw [he]; decide)
  simp only [executeAssistantTool]
  rw [if_neg h1, if_neg h2, if_neg h3, if_neg h4, if_neg h5, if_neg h6, if_neg h7,
    if_neg h8, if_neg h9, if_neg h10, if_neg h11, if_neg h12]

theorem runToolCalls_nil (env : Env) (nestedAt : Nat → List Char) (i : Nat) (d : AxisData) :
    runToolCalls env nestedAt [] i d = ([], d, false) := rfl

theorem runToolCalls_skip (env : Env) (nestedAt : Nat → List Char) (c : PlanCall)
    (rest : List PlanCall) (i : Nat) (d : AxisData) (hname : jsTrim c.name = []) :
    runToolCalls env nestedAt (c :: rest) i d = runToolCalls env nestedAt rest (i + 1) d := by
  rw [runToolCalls, if_pos hname]

theorem runToolCalls_cons (env : Env) (nestedAt : Nat → List Char) (c : PlanCall)
    (rest : List PlanCall) (i : Nat) (d : AxisData) (hname : jsTrim c.name ≠ []) :
    runToolCalls env nestedAt (c :: rest) i d =
      match executeAssistantTool env (nestedAt i) (jsTrim c.name) c.arguments d with
      | .ok p =>
        (.okRes (jsTrim c.name) p.2 :: (runToolCalls env nestedAt rest (i + 1) p.1).1,
         (runToolCalls env nestedAt rest (i + 1) p.1).2.1,
         (runToolCalls env nestedAt rest (i + 1) p.1).2.2 ||
           ! READ_ONLY_TOOLS.contains (jsTrim c.name))
      | .error e =>
        (.errRes (jsTrim c.name) e :: (runToolCalls env nestedAt rest (i + 1) d).1,
         (runToolCalls env nestedAt rest (i + 1) d).2.1,
         (runToolCalls env nestedAt rest (i + 1) d).2.2) := by
  rw [runToolCalls, if_neg hname]
  rcases executeAssistantTool env (nestedAt i) (jsTrim c.name) c.arguments d with e | ⟨d2, res⟩
  · rfl
  · rfl

theorem runToolCalls_single_error (env : Env) (nestedAt : Nat → List Char) (c : PlanCall)
    (i : Nat) (d : AxisData) (e : List Char) (hname : jsTrim c.name ≠ [])
    (hexec : executeAssistantTool env (nestedAt i) (jsTrim c.name) c.arguments d = .error e) :
    runToolCalls env nestedAt [c] i d = ([.errRes (jsTrim c.name) e], d, false) := by
  rw [runToolCalls_cons env nestedAt c [] i d hname, hexec]
  rfl

theorem runToolCalls_append (env : Env) (nestedAt : Nat → List Char) :
    ∀ (pre suf : List PlanCall) (i : Nat) (d : AxisData),
      runToolCalls env nestedAt (pre ++ suf) i d =
        ((runToolCalls env nestedAt pre i d).1 ++
           (runToolCalls env nestedAt suf (i + pre.length)
             (runToolCalls env nestedAt pre i d).2.1).1,
         (runToolCalls env nestedAt suf (i + pre.length)
           (runToolCalls env nestedAt pre i d).2.1).2.1,
         (runToolCalls env nestedAt pre i d).2.2 ||
           (runToolCalls env nestedAt suf (i + pre.length)
             (runToolCalls env nestedAt pre i d).2.1).2.2) := by
  intro pre
  induction pre with
  | nil =>
    intro suf i d
    simp [runToolCalls_nil]
  | cons c rest ih =>
    intro suf i d
    rw [List.cons_append]
    by_cases hname : jsTrim c.name = []
    · rw [runToolCalls_skip env nestedAt c (rest ++ suf) i d hname,
        runToolCalls_skip env nestedAt c rest i d hname, ih]
      have : i + (c :: rest).length = i + 1 + rest.length := by
        simp [List.length_cons]
        omega
      rw [this]
    · rw [runToolCalls_cons env nestedAt c (rest ++ suf) i d hname,
        runToolCalls_cons env nestedAt c rest i d hname]
      have harith : i + (c :: rest).length = i + 1 + rest.length := by
        simp [List.length_cons]
        omega
      rcases hexec : executeAssistantTool env (nestedAt i) (jsTrim c.name) c.arguments d
        with e | ⟨d2, res⟩
      · simp only [ih, harith, List.cons_append]
      · simp only [ih, harith, List.cons_append, Prod.mk.injEq]
        refine ⟨trivial, trivial, ?_⟩
        cases (runToolCalls env nestedAt rest (i + 1) d2).2.2 <;>
          cases (runToolCalls env nestedAt suf (i + 1 + rest.length)
            (runToolCalls env nestedAt rest (i + 1) d2).2.1).2.2 <;>
          cases READ_ONLY_TOOLS.contains (jsTrim c.name) <;> rfl

theorem runToolCalls_names (env : Env) (nestedAt : Nat → List Char) :
    ∀ (calls : List PlanCall) (i : Nat) (d : AxisData),
      (∀ c ∈ calls, jsTrim c.name ≠ []) →
      ((runToolCalls env nestedAt calls i d).1).map ToolResultEntry.name =
        calls.map (fun c => jsTrim c.name) := by
  intro calls
  induction calls with
  | nil => intro i d _; rfl
  | cons c rest ih =>
    intro i d hall
    rw [runToolCalls_cons env nestedAt c rest i d (hall c (by simp))]
    rcases hexec : executeAssistantTool env (nestedAt i) (jsTrim c.name) c.arguments d
      with e | ⟨d2, res⟩
    · simp [ToolResultEntry.name, ih (i + 1) d (fun x hx => hall x (by simp [hx]))]
    · simp [ToolResultEntry.name, ih (i + 1) d2 (fun x hx => hall x (by simp [hx]))]

/-- C5: the ACTING stage executes at most the first 6 planned tool calls —
appending extra calls past a 6-call plan changes nothing and produces no
error — in exactly the order the model returned them, and a call naming an
unknown tool yields an isolated error entry while the calls before and
after it execute exactly as they would without it, on the same threaded
state. -/
theorem acting_cap_order_and_isolation :
    ∀ (env : Env) (nestedAt : Nat → List Char) (data : AxisData),
      (∀ (calls extra : List PlanCall), calls.length = 6 →
        actingPhase env nestedAt (calls ++ extra) data = actingPhase env nestedAt calls data)
      ∧ (∀ (calls : List PlanCall), (∀ c ∈ calls, jsTrim c.name ≠ []) →
        ((actingPhase env nestedAt calls data).1).map ToolResultEntry.name =
          (calls.take 6).map (fun c => jsTrim c.name))
      ∧ (∀ (pre suf : List PlanCall) (bad : PlanCall) (i : Nat) (d : AxisData),
          jsTrim bad.name ≠ [] → jsTrim bad.name ∉ ASSISTANT_TOOL_NAMES →
          runToolCalls env nestedAt (pre ++ bad :: suf) i d =
            ((runToolCalls env nestedAt pre i d).1 ++
               .errRes (jsTrim bad.name) ("Unknown tool: ".data ++ jsTrim bad.name) ::
                 (runToolCalls env nestedAt suf (i + pre.length + 1)
                   (runToolCalls env nestedAt pre i d).2.1).1,
             (runToolCalls env nestedAt suf (i + pre.length + 1)
               (runToolCalls env nestedAt pre i d).2.1).2.1,
             (runToolCalls env nestedAt pre i d).2.2 ||
               (runToolCalls env nestedAt suf (i + pre.length + 1)
                 (runToolCalls env nestedAt pre i d).2.1).2.2)) := by
  intro env nestedAt data
  refine ⟨?_, ?_, ?_⟩
  · intro calls extra hlen
    unfold actingPhase
    rw [List.take_append_eq_append_take, hlen]
    simp
  · intro calls hall
    unfold actingPhase
    exact runToolCalls_names env nestedAt (calls.take 6) 0 data
      (fun c hc => hall c (List.take_subset 6 calls hc))
  · intro pre suf bad i d hne hunk
    have hexec : executeAssistantTool env (nestedAt (i + pre.length))
        (jsTrim bad.name) bad.arguments (runToolCalls env nestedAt pre i d).2.1 =
        .error ("Unknown tool: ".data ++ jsTrim bad.name) := by
      have := executeAssistantTool_unknown env (nestedAt (i + pre.length)) (jsTrim bad.name)
        bad.arguments (runToolCalls env nestedAt pre i d).2.1
        (by rw [jsTrim_idem]; exact hunk)
      rw [this, jsTrim_idem]
    rw [runToolCalls_append env nestedAt pre (bad :: suf) i d,
      runToolCalls_cons env nestedAt bad suf (i + pre.length)
        (runToolCalls env nestedAt pre i d).2.1 hne, hexec]

/-- A concrete request environment used by witnesses. -/
def envW : Env where
  nowMs := 1760227200000
  nonce := "a1b2c3".data
  nowIso := "2026-10-12T00:00:00.000Z".data
  todayKey := "2026-10-12".data
  goalDates := fun _ => ([], [])
  jsDate := fun _ => none
  isoOfMs := fun _ => []
  calendarToken := none
  baseUrl := "http://localhost:3000".data

/-- A concrete empty planner state used by witnesses. -/
def dataW : AxisData where
  aiProvider := none
  profile := none
  tasks := []
  schedule := []
  fixedBlocks := []
  goals := []
  dailyHabits := []
  assistantHistory := []
  lastRebalancedAt := none

/-- Witness for C5 at a concrete batch: a call naming the unknown tool
`fly_to_moon` between two `list_tasks` calls errors in isolation while both
siblings execute. -/
theorem acting_cap_order_and_isolation_witness :
    (jsTrim "fly_to_moon".data ≠ [] ∧ jsTrim "fly_to_moon".data ∉ ASSISTANT_TOOL_NAMES)
    ∧ runToolCalls envW (fun _ => [])
        ([(⟨"list_tasks".data, none⟩ : PlanCall)] ++
          (⟨"fly_to_moon".data, none⟩ : PlanCall) :: [(⟨"list_tasks".data, none⟩ : PlanCall)])
        0 dataW =
      ((runToolCalls envW (fun _ => []) [(⟨"list_tasks".data, none⟩ : PlanCall)] 0 dataW).1 ++
         .errRes (jsTrim "fly_to_moon".data)
             ("Unknown tool: ".data ++ jsTrim "fly_to_moon".data) ::
           (runToolCalls envW (fun _ => []) [(⟨"list_tasks".data, none⟩ : PlanCall)]
             (0 + [(⟨"list_tasks".data, none⟩ : PlanCall)].length + 1)
             (runToolCalls envW (fun _ => [])
               [(⟨"list_tasks".data, none⟩ : PlanCall)] 0 dataW).2.1).1,
       (runToolCalls envW (fun _ => []) [(⟨"list_tasks".data, none⟩ : PlanCall)]
         (0 + [(⟨"list_tasks".data, none⟩ : PlanCall)].length + 1)
         (runToolCalls envW (fun _ => [])
           [(⟨"list_tasks".data, none⟩ : PlanCall)] 0 dataW).2.1).2.1,
       (runToolCalls envW (fun _ => []) [(⟨"list_tasks".data, none⟩ : PlanCall)] 0 dataW).2.2 ||
         (runToolCalls envW (fun _ => []) [(⟨"list_tasks".data, none⟩ : PlanCall)]
           (0 + [(⟨"list_tasks".data, none⟩ : PlanCall)].length + 1)
           (runToolCalls envW (fun _ => [])
             [(⟨"list_tasks".data, none⟩ : PlanCall)] 0 dataW).2.1).2.2) := by
  refine ⟨⟨by decide, by decide⟩, ?_⟩
  exact (acting_cap_order_and_isolation envW (fun _ => []) dataW).2.2
    [⟨"list_tasks".data, none⟩] [⟨"list_tasks".data, none⟩] ⟨"fly_to_moon".data, none⟩
    0 dataW (by decide) (by decide)

theorem exec_update_task (env : Env) (r : List Char) (args : Option Json) (d : AxisData) :
    executeAssistantTool env r "update_task".data args d =
      match assistantUpdateTaskSchemaParse args with
      | none => .error "Invalid update_task arguments".data
      | some patch =>
        match d.tasks.find? (fun t => t.id = patch.id) with
        | none => .error "Task not found".data
        | some old =>
          let task := applyTaskPatch env old patch
          .ok ({ d with tasks := replaceFirstWhere (fun t => t.id = patch.id) task d.tasks },
               .task task) := rfl

theorem exec_delete_task (env : Env) (r : List Char) (args : Option Json) (d : AxisData) :
    executeAssistantTool env r "delete_task".data args d =
      match idSchemaParse args with
      | none => .error "Invalid delete_task arguments".data
      | some id =>
        let tasks2 := d.tasks.filter (fun t => t.id ≠ id)
        let schedule2 :=
          d.schedule.filter (fun b => ¬ (b.kind = "task".data ∧ b.taskId = id))
        if tasks2.length = d.tasks.length then .error "Task not found".data
        else .ok ({ d with tasks := tasks2, schedule := schedule2 }, .success) := rfl

theorem exec_update_goal (env : Env) (r : List Char) (args : Option Json) (d : AxisData) :
    executeAssistantTool env r "update_goal".data args d =
      match goalUpdateSchemaParse args with
      | none => .error "Invalid update_goal arguments".data
      | some patch =>
        match d.goals.find? (fun g => g.id = patch.id) with
        | none => .error "Goal not found".data
        | some old =>
          let prevLevel := normalizeGoalLevel old.level
          let goal := applyGoalPatch env old patch
          let goals2 := replaceFirstWhere (fun g => g.id = patch.id) goal d.goals
          let ts :=
            if prevLevel = "daily".data ∧ goal.level ≠ "daily".data then
              removeDailyGoalTasks goal.id d.tasks d.schedule
            else if goal.level = "daily".data then
              (ensureDailyGoalTask env d.tasks goal, d.schedule)
            else (d.tasks, d.schedule)
          .ok ({ d with goals := goals2, tasks := ts.1, schedule := ts.2 }, .goal goal) := rfl

theorem exec_delete_goal (env : Env) (r : List Char) (args : Option Json) (d : AxisData) :
    executeAssistantTool env r "delete_goal".data args d =
      match idSchemaParse args with
      | none => .error "Invalid delete_goal arguments".data
      | some id =>
        match d.goals.find? (fun g => g.id = id) with
        | none => .error "Goal not found".data
        | some goal =>
          let goals2 := d.goals.filter (fun g => g.id ≠ id)
          let ts :=
            if goal.level = "daily".data then removeDailyGoalTasks id d.tasks d.schedule
            else (d.tasks, d.schedule)
          let slug := goalSlug goal.name
          let tasks3 :=
            if slug ≠ [] then
              ts.1.map (fun t =>
                let t1 := if t.goalId = some id then { t with goalId := none } else t
                if t1.task_category = slug then { t1 with task_category := "study".data }
                else t1)
            else ts.1
          .ok ({ d with goals := goals2, tasks := tasks3, schedule := ts.2 }, .success) := rfl

theorem exec_delete_habit (env : Env) (r : List Char) (args : Option Json) (d : AxisData) :
    executeAssistantTool env r "delete_habit".data args d =
      match idSchemaParse args with
      | none => .error "Invalid delete_habit arguments".data
      | some id =>
        if (d.dailyHabits.filter (fun h => h.id ≠ id)).length = d.dailyHabits.length then
          .error "Habit not found".data
        else
          .ok ({ d with dailyHabits := d.dailyHabits.filter (fun h => h.id ≠ id) },
               .success) := rfl

/-- C6: every id-addressed tool call whose id matches no existing task,
goal or habit produces an error result, and through the tool-call loop the
shared planner state is returned completely unchanged (no partial mutation
of tasks, schedule, goals or habits) and the turn is not flagged as
changed — in particular `delete_task`, whose filters of the task list and
schedule happen before the existence check. -/
theorem id_not_found_error_and_state_unchanged :
    ∀ (env : Env) (nestedAt : Nat → List Char) (i : Nat) (args : Option Json)
      (data : AxisData),
      (∀ patch, assistantUpdateTaskSchemaParse args = some patch →
        (∀ t ∈ data.tasks, t.id ≠ patch.id) →
        runToolCalls env nestedAt [⟨"update_task".data, args⟩] i data =
          ([.errRes "update_task".data "Task not found".data], data, false))
      ∧ (∀ id, idSchemaParse args = some id →
        (∀ t ∈ data.tasks, t.id ≠ id) →
        runToolCalls env nestedAt [⟨"delete_task".data, args⟩] i data =
          ([.errRes "delete_task".data "Task not found".data], data, false))
      ∧ (∀ patch, goalUpdateSchemaParse args = some patch →
        (∀ g ∈ data.goals, g.id ≠ patch.id) →
        runToolCalls env nestedAt [⟨"update_goal".data, args⟩] i data =
          ([.errRes "update_goal".data "Goal not found".data], data, false))
      ∧ (∀ id, idSchemaParse args = some id →
        (∀ g ∈ data.goals, g.id ≠ id) →
        runToolCalls env nestedAt [⟨"delete_goal".data, args⟩] i data =
          ([.errRes "delete_goal".data "Goal not found".data], data, false))
      ∧ (∀ id, idSchemaParse args = some id →
        (∀ h ∈ data.dailyHabits, h.id ≠ id) →
        runToolCalls env nestedAt [⟨"delete_habit".data, args⟩] i data =
          ([.errRes "delete_habit".data "Habit not found".data], data, false)) := by
  intro env nestedAt i args data
  refine ⟨?_, ?_, ?_, ?_, ?_⟩
  · intro patch hp hnone
    have hfind : data.tasks.find? (fun t => t.id = patch.id) = none :=
      List.find?_eq_none.mpr (fun t ht => by simpa using hnone t ht)
    have hexec : executeAssistantTool env (nestedAt i) "update_task".data args data =
        Except.error "Task not found".data := by
      rw [exec_update_task env (nestedAt i) args data, hp]
      simp only [hfind]
    exact runToolCalls_single_error env nestedAt ⟨"update_task".data, args⟩ i data
      "Task not found".data (by decide : jsTrim "update_task".data ≠ []) hexec
  · intro id hp hnone
    have hfil : data.tasks.filter (fun t => t.id ≠ id) = data.tasks :=
      List.filter_eq_self.mpr (fun t ht => by simpa using hnone t ht)
    have hexec : executeAssistantTool env (nestedAt i) "delete_task".data args data =
        Except.error "Task not found".data := by
      rw [exec_delete_task env (nestedAt i) args data, hp]
      simp [hfil]
      intro t ht
      exact hnone t ht
    exact runToolCalls_single_error env nestedAt ⟨"delete_task".data, args⟩ i data
      "Task not found".data (by decide : jsTrim "delete_task".data ≠ []) hexec
  · intro patch hp hnone
    have hfind : data.goals.find? (fun g => g.id = patch.id) = none :=
      List.find?_eq_none.mpr (fun g hg => by simpa using hnone g hg)
    have hexec : executeAssistantTool env (nestedAt i) "update_goal".data args data =
        Except.error "Goal not found".data := by
      rw [exec_update_goal env (nestedAt i) args data, hp]
      simp only [hfind]
    exact runToolCalls_single_error env nestedAt ⟨"update_goal".data, args⟩ i data
      "Goal not found".data (by decide : jsTrim "update_goal".data ≠ []) hexec
  · intro id hp hnone
    have hfind : data.goals.find? (fun g => g.id = id) = none :=
      List.find?_eq_none.mpr (fun g hg => by simpa using hnone g hg)
    have hexec : executeAssistantTool env (nestedAt i) "delete_goal".data args data =
        Except.error "Goal not found".data := by
      rw [exec_delete_goal env (nestedAt i) args data, hp]
      simp only [hfind]
    exact runToolCalls_single_error env nestedAt ⟨"delete_goal".data, args⟩ i data
      "Goal not found".data (by decide : jsTrim "delete_goal".data ≠ []) hexec
  · intro id hp hnone
    have hfil : data.dailyHabits.filter (fun h => h.id ≠ id) = data.dailyHabits :=
      List.filter_eq_self.mpr (fun h ht => by simpa using hnone h ht)
    have hexec : executeAssistantTool env (nestedAt i) "delete_habit".data args data =
        Except.error "Habit not found".data := by
      rw [exec_delete_habit env (nestedAt i) args data, hp]
      simp [hfil]
      intro h ht
      exact hnone h ht
    exact runToolCalls_single_error env nestedAt ⟨"delete_habit".data, args⟩ i data
      "Habit not found".data (by decide : jsTrim "delete_habit".data ≠ []) hexec

/-- Witness for C6: deleting the missing task id `task_missing` from a
one-task planner errors and leaves the state untouched. -/
theorem id_not_found_error_and_state_unchanged_witness :
    (idSchemaParse (some (Json.obj [("id".data, Json.str "task_missing".data)])) =
        some "task_missing".data)
    ∧ runToolCalls envW (fun _ => [])
        [⟨"delete_task".data, some (Json.obj [("id".data, Json.str "task_missing".data)])⟩]
        0
        { dataW with tasks := [⟨"task_1".data, "Read".data, "Important, Not Urgent".data,
            "study".data, "2026-10-13".data, "23:59".data, 2, false, false, none,
            "2026-10-12T00:00:00.000Z".data, none, false, none⟩] } =
      ([.errRes "delete_task".data "Task not found".data],
       { dataW with tasks := [⟨"task_1".data, "Read".data, "Important, Not Urgent".data,
           "study".data, "2026-10-13".data, "23:59".data, 2, false, false, none,
           "2026-10-12T00:00:00.000Z".data, none, false, none⟩] },
       false) := by
  refine ⟨rfl, ?_⟩
  exact (id_not_found_error_and_state_unchanged envW (fun _ => []) 0
    (some (Json.obj [("id".data, Json.str "task_missing".data)])) _).2.1
    "task_missing".data rfl (by decide)

theorem exec_rebalance (env : Env) (r : List Char) (args : Option Json) (d : AxisData) :
    executeAssistantTool env r "rebalance_schedule".data args d =
      match assistantRebalanceSchemaParse args with
      | none => .error "Invalid rebalance_schedule arguments".data
      | some _ =>
        match aiRebalanceScheduleFromUserData env d r with
        | .error e => .error e
        | .ok blocks =>
          .ok ({ d with schedule := blocks, lastRebalancedAt := some env.nowIso },
               .blocksAdded blocks.length) := rfl

/-- Two half-open time ranges overlap. -/
def blocksOverlap (aStart aEnd bStart bEnd : Int) : Prop :=
  aStart < bEnd ∧ bStart < aEnd

/-- The request environment of the C2 scenario: the abstract `Date` parser
maps the two ISO strings of the proposed block to their timestamps. -/
def envC2 : Env :=
  { envW with
    jsDate := fun j =>
      match j with
      | some (Json.str s) =>
        if s = "2026-01-05T10:00:00.000Z".data then some 600
        else if s = "2026-01-05T11:00:00.000Z".data then some 660
        else none
      | _ => none }

/-- One unfinished task. -/
def taskT1 : Task :=
  ⟨"t1".data, "Essay".data, "Important, Not Urgent".data, "study".data,
   "2026-01-06".data, "23:59".data, 2, false, false, none,
   "2026-01-01T00:00:00.000Z".data, none, false, none⟩

/-- Planner state of the C2 scenario: one unfinished task, an empty
schedule, and a fixed block occupying 10:00-11:00. -/
def dataC2 : AxisData :=
  { dataW with
    tasks := [taskT1]
    fixedBlocks := [⟨600, 660, "Class".data, []⟩] }

/-- The nested LLM reply of the C2 scenario: a single proposed block that
exactly overlaps the fixed block. -/
def replyC2 : List Char :=
  ("\x7b\"blocks\":[\x7b\"taskId\":\"t1\"," ++
   "\"start\":\"2026-01-05T10:00:00.000Z\"," ++
   "\"end\":\"2026-01-05T11:00:00.000Z\",\"reason\":\"x\"\x7d]\x7d").data

/-- The block the rebalance validation accepts in the C2 scenario. -/
def blockC2 : SchedBlock :=
  ⟨"task".data, "t1".data, 600, 660⟩

/-- Counterexample to C2 as stated: the only proposed block overlaps the
existing fixed block, yet validation keeps it — the tool call succeeds and
replaces the schedule with the overlapping block instead of discarding it
and failing. -/
theorem rebalance_overlap_not_discarded_cex :
    (dataC2.fixedBlocks = [⟨600, 660, "Class".data, []⟩]
      ∧ blocksOverlap 600 660 600 660)
    ∧ aiRebalanceScheduleFromUserData envC2 dataC2 replyC2 = .ok [blockC2]
    ∧ executeAssistantTool envC2 replyC2 "rebalance_schedule".data
        (some (Json.obj [])) dataC2 =
      .ok ({ dataC2 with schedule := [blockC2], lastRebalancedAt := some envC2.nowIso },
           .blocksAdded 1)
    ∧ [blockC2] ≠ dataC2.schedule := by
  exact ⟨⟨rfl, by decide, by decide⟩, rfl, rfl, by decide⟩

/-- C2 (amended): rebalance validation checks only that the block's task id
names an unfinished task, that both timestamps parse, and that the end is
strictly after the start (per-day caps and fixed-block overlap are stated
only in the nested prompt, not checked in code); blocks failing those
checks are discarded; if no valid block remains the tool call is an error
and the loop leaves the caller's state, including the schedule, unchanged;
on success the schedule is replaced by exactly the surviving blocks. -/
theorem rebalance_validation_and_error :
    ∀ (env : Env) (data : AxisData) (reply : List Char),
      (∀ (b : Json) (sb : SchedBlock),
        validateRebalBlock env (unfinishedTaskIds data) b = some sb ↔
          ∃ f tid s e, b = Json.obj f
            ∧ jsonLookup f "taskId".data = some (Json.str tid)
            ∧ tid ∈ unfinishedTaskIds data
            ∧ env.jsDate (jsonLookup f "start".data) = some s
            ∧ env.jsDate (jsonLookup f "end".data) = some e
            ∧ s < e
            ∧ sb = ⟨"task".data, tid, s, e⟩)
      ∧ (∀ (nestedAt : Nat → List Char) (i : Nat) (args : Option Json)
            (ra : RebalanceArgs),
          assistantRebalanceSchemaParse args = some ra →
          nestedAt i = reply →
          (rebalBlocksOf reply).filterMap
              (validateRebalBlock env (unfinishedTaskIds data)) = [] →
          ∃ e, runToolCalls env nestedAt [⟨"rebalance_schedule".data, args⟩] i data =
            ([.errRes "rebalance_schedule".data e], data, false))
      ∧ (∀ ns : List SchedBlock, ns ≠ [] →
          (rebalBlocksOf reply).filterMap
              (validateRebalBlock env (unfinishedTaskIds data)) = ns →
          aiRebalanceScheduleFromUserData env data reply = .ok ns) := by
  intro env data reply
  refine ⟨?_, ?_, ?_⟩
  · intro b sb
    constructor
    · intro h
      unfold validateRebalBlock at h
      split at h
      next f =>
        split at h
        next tid hl =>
          split at h
          next hmem =>
            split at h
            next s e hs he =>
              split at h
              next hle => exact absurd h (by simp)
              next hle =>
                refine ⟨f, tid, s, e, rfl, hl, (contains_iff_mem _ _).mp hmem, hs, he,
                  by omega, ?_⟩
                cases h
                rfl
            next hdates => exact absurd h (by simp)
          next hmem => exact absurd h (by simp)
        next hl => exact absurd h (by simp)
      next hobj => exact absurd h (by simp)
    · rintro ⟨f, tid, s, e, rfl, h1, h2, h3, h4, h5, rfl⟩
      have hcon : (unfinishedTaskIds data).contains tid = true :=
        (contains_iff_mem _ _).mpr h2
      have hle : ¬ (e ≤ s) := by omega
      simp [validateRebalBlock, h1, h3, h4, hcon, hle]
      exact h2
  · intro nestedAt i args ra hargs hr hfilter
    have herr : ∃ e, aiRebalanceScheduleFromUserData env data reply = .error e := by
      unfold aiRebalanceScheduleFromUserData
      by_cases hb : (rebalBlocksOf reply).isEmpty = true
      · exact ⟨"AI returned no schedule blocks.".data, by rw [if_pos hb]⟩
      · refine ⟨"AI returned invalid schedule blocks.".data, ?_⟩
        rw [if_neg hb, hfilter]
        rfl
    obtain ⟨e, he⟩ := herr
    refine ⟨e, ?_⟩
    have hexec : executeAssistantTool env (nestedAt i) "rebalance_schedule".data
        args data = Except.error e := by
      rw [exec_rebalance env (nestedAt i) args data, hargs, hr]
      simp only [he]
    exact runToolCalls_single_error env nestedAt ⟨"rebalance_schedule".data, args⟩ i data
      e (by decide : jsTrim "rebalance_schedule".data ≠ []) hexec
  · intro ns hns hfilter
    unfold aiRebalanceScheduleFromUserData
    have hb : (rebalBlocksOf reply).isEmpty = false := by
      cases hbl : rebalBlocksOf reply with
      | nil =>
        rw [hbl] at hfilter
        simp at hfilter
        exact (hns hfilter).elim
      | cons x xs => rfl
    rw [if_neg (by simp [hb]), hfilter, if_neg (by simp [hns])]

/-- Witness for C2 (amended): the overlapping-but-valid block of the
counterexample scenario survives; and with a reply proposing only a block
for an unknown task id, the tool call errors and the state is unchanged. -/
theorem rebalance_validation_and_error_witness :
    (validateRebalBlock envC2 (unfinishedTaskIds dataC2)
        (Json.obj [("taskId".data, Json.str "t1".data),
          ("start".data, Json.str "2026-01-05T10:00:00.000Z".data),
          ("end".data, Json.str "2026-01-05T11:00:00.000Z".data)]) =
      some ⟨"task".data, "t1".data, 600, 660⟩)
    ∧ (∃ e, runToolCalls envC2
        (fun _ => ("\x7b\"blocks\":[\x7b\"taskId\":\"nope\"," ++
          "\"start\":\"2026-01-05T10:00:00.000Z\"," ++
          "\"end\":\"2026-01-05T11:00:00.000Z\"\x7d]\x7d").data)
        [⟨"rebalance_schedule".data, some (Json.obj [])⟩] 0 dataC2 =
      ([.errRes "rebalance_schedule".data e], dataC2, false)) := by
  constructor
  · exact ((rebalance_validation_and_error envC2 dataC2 []).1 _ _).mpr
      ⟨_, "t1".data, 600, 660, rfl, rfl, by decide, rfl, rfl, by decide, rfl⟩
  · exact (rebalance_validation_and_error envC2 dataC2
      ("\x7b\"blocks\":[\x7b\"taskId\":\"nope\"," ++
        "\"start\":\"2026-01-05T10:00:00.000Z\"," ++
        "\"end\":\"2026-01-05T11:00:00.000Z\"\x7d]\x7d").data).2.1
      (fun _ => ("\x7b\"blocks\":[\x7b\"taskId\":\"nope\"," ++
        "\"start\":\"2026-01-05T10:00:00.000Z\"," ++
        "\"end\":\"2026-01-05T11:00:00.000Z\"\x7d]\x7d").data) 0
      (some (Json.obj [])) ⟨7, 10⟩ rfl rfl (by rfl)

/-- The raw planning reply of the C1 counterexample: valid (truthy) JSON —
an array — that fails an object schema, although its first brace-balanced
substring satisfies the schema. -/
def rawC1 : List Char :=
  "[0, \x7b\"a\":1\x7d]".data

/-- A schema accepting exactly the object `\x7b"a":1\x7d`. -/
def schemaC1 : Option Json → Option Json := fun v =>
  match v with
  | some (Json.obj [(k, Json.num 1 0)]) =>
    if k = "a".data then some (Json.obj [(k, Json.num 1 0)]) else none
  | _ => none

/-- The oracle of the C1 counterexample: the planning call returns `rawC1`
and the repair call returns prose that is not JSON. -/
def oracleC1 : LlmCall → List Char := fun c =>
  if c.system = strictJsonFormatterSystem then "I cannot produce JSON".data else rawC1

/-- Counterexample to C1 as stated: on `rawC1` the brace-balanced
extraction stage yields a schema-valid value, so under per-stage validation
("each validated against the schema", stopping at the first success) no
repair call would be needed — but the pipeline issues the corrective second
call and returns the hard failure, because it validates the schema only
once, against the first truthy parse (the array). -/
theorem repair_pipeline_stagewise_validation_cex :
    (schemaC1 (safeParseJSON ((extractFirstJsonObject rawC1).getD [])) =
        some (Json.obj [("a".data, Json.num 1 0)]))
    ∧ (callLlmWithJsonRepair oracleC1 schemaC1 "sys".data "usr".data (1 / 5 : ℚ) 900
        none).2.length = 2
    ∧ (callLlmWithJsonRepair oracleC1 schemaC1 "sys".data "usr".data (1 / 5 : ℚ) 900
        none).1.isFailure = true := by
  exact ⟨rfl, rfl, rfl⟩

/-- C1 (amended): the extraction pipeline tries direct parse, then
fence-stripped parse, stopping at the first truthy parse result, then
brace-balanced extraction; the schema is validated once against that single
result.  On validation failure the pipeline issues exactly one corrective
LLM call, at temperature 0 with the strict-JSON-formatter system prompt,
applies the same three-stage extraction once to its output, validates once,
and if still invalid returns the hard failure (`ok:false`) with no silent
fallback value. -/
theorem repair_pipeline_single_validation_one_repair :
    ∀ {α : Type} (oracle : LlmCall → List Char) (schema : Option Json → Option α)
      (system userMsg : List Char) (temperature : ℚ) (maxTokens : Nat)
      (schemaHint : Option (List Char)),
      (∀ (text : List Char) (v : Json),
        truthyOpt (safeParseJSON (jsTrim text)) = some v →
        safeParseJSONFromText text = some v)
      ∧ (∀ text : List Char,
          truthyOpt (safeParseJSON (jsTrim text)) = none →
          truthyOpt (safeParseJSON (jsTrim (removeFences (jsTrim text)))) = none →
          safeParseJSONFromText text =
            ((extractFirstJsonObject (jsTrim text)).or
              (extractFirstJsonObject (jsTrim (removeFences (jsTrim text))))).bind
              safeParseJSON)
      ∧ (∀ d,
          schema (safeParseJSONFromText
            (oracle ⟨system, userMsg, temperature, maxTokens, true⟩)) = some d →
          callLlmWithJsonRepair oracle schema system userMsg temperature maxTokens
              schemaHint =
            (.success (oracle ⟨system, userMsg, temperature, maxTokens, true⟩) d false,
             [⟨system, userMsg, temperature, maxTokens, true⟩]))
      ∧ (schema (safeParseJSONFromText
            (oracle ⟨system, userMsg, temperature, maxTokens, true⟩)) = none →
          (callLlmWithJsonRepair oracle schema system userMsg temperature maxTokens
              schemaHint).2 =
            [⟨system, userMsg, temperature, maxTokens, true⟩,
             ⟨strictJsonFormatterSystem,
              buildRepairUser schemaHint (oracle ⟨system, userMsg, temperature, maxTokens, true⟩),
              0, max 300 (min maxTokens 1200), true⟩]
          ∧ (∀ d,
              schema (safeParseJSONFromText
                (oracle ⟨strictJsonFormatterSystem,
                  buildRepairUser schemaHint
                    (oracle ⟨system, userMsg, temperature, maxTokens, true⟩),
                  0, max 300 (min maxTokens 1200), true⟩)) = some d →
              (callLlmWithJsonRepair oracle schema system userMsg temperature maxTokens
                  schemaHint).1 =
                .success (oracle ⟨strictJsonFormatterSystem,
                  buildRepairUser schemaHint
                    (oracle ⟨system, userMsg, temperature, maxTokens, true⟩),
                  0, max 300 (min maxTokens 1200), true⟩) d true)
          ∧ (schema (safeParseJSONFromText
                (oracle ⟨strictJsonFormatterSystem,
                  buildRepairUser schemaHint
                    (oracle ⟨system, userMsg, temperature, maxTokens, true⟩),
                  0, max 300 (min maxTokens 1200), true⟩)) = none →
              (callLlmWithJsonRepair oracle schema system userMsg temperature maxTokens
                  schemaHint).1 =
                .failure (oracle ⟨system, userMsg, temperature, maxTokens, true⟩)
                  (oracle ⟨strictJsonFormatterSystem,
                    buildRepairUser schemaHint
                      (oracle ⟨system, userMsg, temperature, maxTokens, true⟩),
                    0, max 300 (min maxTokens 1200), true⟩))) := by
  intro α oracle schema system userMsg temperature maxTokens schemaHint
  refine ⟨?_, ?_, ?_, ?_⟩
  · intro text v h
    simp only [safeParseJSONFromText, h]
  · intro text h1 h2
    simp only [safeParseJSONFromText, h1, h2]
    cases (extractFirstJsonObject (jsTrim text)).or
        (extractFirstJsonObject (jsTrim (removeFences (jsTrim text)))) <;> rfl
  · intro d hd
    simp only [callLlmWithJsonRepair, hd]
  · intro hnone
    simp only [callLlmWithJsonRepair, hnone]
    refine ⟨?_, ?_, ?_⟩
    · cases hrep : schema (safeParseJSONFromText
        (oracle ⟨strictJsonFormatterSystem,
          buildRepairUser schemaHint (oracle ⟨system, userMsg, temperature, maxTokens, true⟩),
          0, max 300 (min maxTokens 1200), true⟩)) <;> simp [hrep]
    · intro d hd
      simp only [hd]
    · intro hnone2
      simp only [hnone2]

/-- Witness for C1 (amended) at concrete inputs: the counterexample oracle
drives the pipeline into the one-repair-then-hard-failure path. -/
theorem repair_pipeline_single_validation_one_repair_witness :
    (schemaC1 (safeParseJSONFromText (oracleC1 ⟨"sys".data, "usr".data, 1 / 5, 900, true⟩)) =
        none)
    ∧ (callLlmWithJsonRepair oracleC1 schemaC1 "sys".data "usr".data (1 / 5 : ℚ) 900
        none).2 =
      [⟨"sys".data, "usr".data, 1 / 5, 900, true⟩,
       ⟨strictJsonFormatterSystem,
        buildRepairUser none (oracleC1 ⟨"sys".data, "usr".data, 1 / 5, 900, true⟩),
        0, max 300 (min 900 1200), true⟩] := by
  refine ⟨rfl, ?_⟩
  exact ((repair_pipeline_single_validation_one_repair oracleC1 schemaC1 "sys".data
    "usr".data (1 / 5) 900 none).2.2.2 rfl).1

/-- One unfolding step of `callOpenAIGo` when the attempt throws. -/
theorem callOpenAIGo_throw (outcomes : Nat → OaAttempt) (e : JsError)
    (attempt remaining : Nat) (delays : List Nat)
    (h : outcomes attempt = .throwErr e) :
    callOpenAIGo outcomes attempt (remaining + 1) delays =
      if openAiRetryable e ∧ attempt < 3 then
        callOpenAIGo outcomes (attempt + 1) remaining (delays ++ [1000 * attempt])
      else (.error e, attempt, delays) := by
  simp only [callOpenAIGo, h]

/-- One unfolding step of `callOpenAIGo` when the attempt succeeds. -/
theorem callOpenAIGo_success (outcomes : Nat → OaAttempt) (reply : List Char)
    (attempt remaining : Nat) (delays : List Nat)
    (h : outcomes attempt = .success reply) :
    callOpenAIGo outcomes attempt (remaining + 1) delays =
      (.ok (jsTrim reply), attempt, delays) := by
  simp only [callOpenAIGo, h]

/-- One unfolding step of `callGeminiGo` when the fetch throws. -/
theorem callGeminiGo_throw (outcomes : Nat → GemAttempt) (e : JsError)
    (attempt remaining : Nat) (delays : List Nat) (lastErr : Option JsError)
    (h : outcomes attempt = .fetchThrow e) :
    callGeminiGo outcomes attempt (remaining + 1) delays lastErr =
      if geminiRetryable e ∧ attempt < 3 then
        callGeminiGo outcomes (attempt + 1) remaining (delays ++ [1000 * attempt]) (some e)
      else (.error e, attempt, delays) := by
  simp only [callGeminiGo, h]

/-- `read ECONNRESET`: a transient connection-reset error. -/
def connResetErr : JsError :=
  ⟨"Error".data, "ECONNRESET".data, "read ECONNRESET".data⟩

/-- Counterexample to C8 as stated: a connection reset is transient for both
the OpenAI and the Gemini retryability tests, yet `callDeepSeek` surfaces it
after a single fetch — no second attempt, no backoff — so it is not true
that EVERY provider adapter retries transient network errors up to 3
attempts. -/
theorem deepseek_no_transient_retry_cex :
    openAiRetryable connResetErr = true
    ∧ geminiRetryable connResetErr = true
    ∧ callDeepSeek true (fun _ => DsAttempt.fetchThrow connResetErr) =
        (.error connResetErr, 1)
    ∧ callDeepSeek false (fun _ => DsAttempt.fetchThrow connResetErr) =
        (.error connResetErr, 1) :=
  ⟨by decide, by decide, rfl, rfl⟩

/-- C8 (amended): only the OpenAI and Gemini adapters retry transient
network errors, up to 3 sequential attempts with linearly increasing
backoff of `attempt × 1000` ms (delays 1000 then 2000), surfacing the last
error once the cap is exhausted; a retryable error followed by a success is
recovered without surfacing; a non-retryable error surfaces immediately
with no delay.  The DeepSeek adapter performs a single fetch: a thrown
network error — transient or not — surfaces at once, with no retry and no
backoff. -/
theorem adapter_transient_retry_policy :
    (∀ (e : JsError) (outcomes : Nat → OaAttempt),
      openAiRetryable e = true → (∀ n, outcomes n = .throwErr e) →
      callOpenAI outcomes = (.error e, 3, [1000, 2000]))
    ∧ (∀ (e : JsError) (outcomes : Nat → GemAttempt),
      geminiRetryable e = true → (∀ n, outcomes n = .fetchThrow e) →
      callGemini outcomes = (.error e, 3, [1000, 2000]))
    ∧ (∀ (e : JsError) (reply : List Char) (outcomes : Nat → OaAttempt),
      openAiRetryable e = true →
      outcomes 1 = .throwErr e → outcomes 2 = .success reply →
      callOpenAI outcomes = (.ok (jsTrim reply), 2, [1000]))
    ∧ (∀ (e : JsError) (outcomes : Nat → OaAttempt),
      openAiRetryable e = false → outcomes 1 = .throwErr e →
      callOpenAI outcomes = (.error e, 1, []))
    ∧ (∀ (e : JsError) (outcomes : Nat → DsAttempt) (expectJSON : Bool),
      outcomes 0 = .fetchThrow e →
      callDeepSeek expectJSON outcomes = (.error e, 1)) := by
  refine ⟨?_, ?_, ?_, ?_, ?_⟩
  · intro e outcomes he hout
    show callOpenAIGo outcomes 1 (2 + 1) [] = _
    rw [callOpenAIGo_throw outcomes e 1 2 [] (hout 1),
      if_pos (⟨he, by norm_num⟩ : openAiRetryable e = true ∧ 1 < 3)]
    show callOpenAIGo outcomes 2 (1 + 1) [1000] = _
    rw [callOpenAIGo_throw outcomes e 2 1 [1000] (hout 2),
      if_pos (⟨he, by norm_num⟩ : openAiRetryable e = true ∧ 2 < 3)]
    show callOpenAIGo outcomes 3 (0 + 1) [1000, 2000] = _
    rw [callOpenAIGo_throw outcomes e 3 0 [1000, 2000] (hout 3),
      if_neg (fun hc => absurd hc.2 (by norm_num))]
  · intro e outcomes he hout
    show callGeminiGo outcomes 1 (2 + 1) [] none = _
    rw [callGeminiGo_throw outcomes e 1 2 [] none (hout 1),
      if_pos (⟨he, by norm_num⟩ : geminiRetryable e = true ∧ 1 < 3)]
    show callGeminiGo outcomes 2 (1 + 1) [1000] (some e) = _
    rw [callGeminiGo_throw outcomes e 2 1 [1000] (some e) (hout 2),
      if_pos (⟨he, by norm_num⟩ : geminiRetryable e = true ∧ 2 < 3)]
    show callGeminiGo outcomes 3 (0 + 1) [1000, 2000] (some e) = _
    rw [callGeminiGo_throw outcomes e 3 0 [1000, 2000] (some e) (hout 3),
      if_neg (fun hc => absurd hc.2 (by norm_num))]
  · intro e reply outcomes he h1 h2
    show callOpenAIGo outcomes 1 (2 + 1) [] = _
    rw [callOpenAIGo_throw outcomes e 1 2 [] h1,
      if_pos (⟨he, by norm_num⟩ : openAiRetryable e = true ∧ 1 < 3)]
    show callOpenAIGo outcomes 2 (1 + 1) [1000] = _
    rw [callOpenAIGo_success outcomes reply 2 1 [1000] h2]
  · intro e outcomes he h1
    show callOpenAIGo outcomes 1 (2 + 1) [] = _
    rw [callOpenAIGo_throw outcomes e 1 2 [] h1, if_neg (by simp [he])]
  · intro e outcomes expectJSON h0
    simp only [callDeepSeek, h0]

/-- Witness for C8 (amended) at the concrete connection-reset error. -/
theorem adapter_transient_retry_policy_witness :
    callOpenAI (fun _ => .throwErr connResetErr) = (.error connResetErr, 3, [1000, 2000])
    ∧ callGemini (fun _ => .fetchThrow connResetErr) = (.error connResetErr, 3, [1000, 2000])
    ∧ callDeepSeek true (fun _ => .fetchThrow connResetErr) = (.error connResetErr, 1) :=
  ⟨adapter_transient_retry_policy.1 connResetErr (fun _ => .throwErr connResetErr)
      (by decide) (fun _ => rfl),
   adapter_transient_retry_policy.2.1 connResetErr (fun _ => .fetchThrow connResetErr)
      (by decide) (fun _ => rfl),
   adapter_transient_retry_policy.2.2.2.2 connResetErr
      (fun _ => .fetchThrow connResetErr) true rfl⟩

/-- Tool `tool_start`/`tool_done` status events are never `done` or `token`
events. -/
theorem toolStatusEvents_not_done_not_token (rs : List ToolResultEntry) :
    ∀ ev ∈ toolStatusEvents rs, ev.isDone = false ∧ ev.isToken = false := by
  intro ev hev
  rw [toolStatusEvents, List.mem_flatMap] at hev
  obtain ⟨r, -, hr⟩ := hev
  simp only [List.mem_cons, List.not_mem_nil, or_false] at hr
  rcases hr with rfl | rfl <;> exact ⟨rfl, rfl⟩

/-- A successful tool execution never touches the conversation history. -/
theorem executeAssistantTool_history (env : Env) (nested name : List Char)
    (args : Option Json) (data d2 : AxisData) (r : ToolOk)
    (h : executeAssistantTool env nested name args data = .ok (d2, r)) :
    d2.assistantHistory = data.assistantHistory := by
  simp only [executeAssistantTool] at h
  by_cases c1 : jsTrim name = "get_snapshot".data
  · rw [if_pos c1] at h
    injection h with hq
    injection hq with ha hb
    subst ha
    rfl
  rw [if_neg c1] at h
  by_cases c2 : jsTrim name = "list_tasks".data
  · rw [if_pos c2] at h
    injection h with hq
    injection hq with ha hb
    subst ha
    rfl
  rw [if_neg c2] at h
  by_cases c3 : jsTrim name = "create_task".data
  · rw [if_pos c3] at h
    repeat' split at h
    all_goals
      first
      | exact Except.noConfusion h
      | (injection h with hq
         injection hq with ha hb
         subst ha
         rfl)
  rw [if_neg c3] at h
  by_cases c4 : jsTrim name = "update_task".data
  · rw [if_pos c4] at h
    repeat' split at h
    all_goals
      first
      | exact Except.noConfusion h
      | (injection h with hq
         injection hq with ha hb
         subst ha
         rfl)
  rw [if_neg c4] at h
  by_cases c5 : jsTrim name = "delete_task".data
  · rw [if_pos c5] at h
    repeat' split at h
    all_goals
      first
      | exact Except.noConfusion h
      | (injection h with hq
         injection hq with ha hb
         subst ha
         rfl)
  rw [if_neg c5] at h
  by_cases c6 : jsTrim name = "create_goal".data
  · rw [if_pos c6] at h
    repeat' split at h
    all_goals
      first
      | exact Except.noConfusion h
      | (injection h with hq
         injection hq with ha hb
         subst ha
         rfl)
  rw [if_neg c6] at h
  by_cases c7 : jsTrim name = "update_goal".data
  · rw [if_pos c7] at h
    repeat' split at h
    all_goals
      first
      | exact Except.noConfusion h
      | (injection h with hq
         injection hq with ha hb
         subst ha
         rfl)
  rw [if_neg c7] at h
  by_cases c8 : jsTrim name = "delete_goal".data
  · rw [if_pos c8] at h
    repeat' split at h
    all_goals
      first
      | exact Except.noConfusion h
      | (injection h with hq
         injection hq with ha hb
         subst ha
         rfl)
  rw [if_neg c8] at h
  by_cases c9 : jsTrim name = "add_habit".data
  · rw [if_pos c9] at h
    repeat' split at h
    all_goals
      first
      | exact Except.noConfusion h
      | (injection h with hq
         injection hq with ha hb
         subst ha
         rfl)
  rw [if_neg c9] at h
  by_cases c10 : jsTrim name = "delete_habit".data
  · rw [if_pos c10] at h
    repeat' split at h
    all_goals
      first
      | exact Except.noConfusion h
      | (injection h with hq
         injection hq with ha hb
         subst ha
         rfl)
  rw [if_neg c10] at h
  by_cases c11 : jsTrim name = "rebalance_schedule".data
  · rw [if_pos c11] at h
    repeat' split at h
    all_goals
      first
      | exact Except.noConfusion h
      | (injection h with hq
         injection hq with ha hb
         subst ha
         rfl)
  rw [if_neg c11] at h
  by_cases c12 : jsTrim name = "get_calendar_links".data
  · rw [if_pos c12] at h
    repeat' split at h
    all_goals
      first
      | exact Except.noConfusion h
      | (injection h with hq
         injection hq with ha hb
         subst ha
         rfl)
  rw [if_neg c12] at h
  exact Except.noConfusion h

/-- The tool loop never touches the conversation history. -/
theorem runToolCalls_history (env : Env) (nestedAt : Nat → List Char) :
    ∀ (calls : List PlanCall) (i : Nat) (d : AxisData),
      (runToolCalls env nestedAt calls i d).2.1.assistantHistory =
        d.assistantHistory := by
  intro calls
  induction calls with
  | nil => intro i d; rfl
  | cons c rest ih =>
    intro i d
    by_cases hname : jsTrim c.name = []
    · simp only [runToolCalls, if_pos hname]
      exact ih (i + 1) d
    · rcases hex : executeAssistantTool env (nestedAt i) (jsTrim c.name) c.arguments d with
        e | ⟨d2, res⟩
      · simp only [runToolCalls, if_neg hname, hex]
        exact ih (i + 1) d
      · simp only [runToolCalls, if_neg hname, hex]
        rw [ih (i + 1) d2]
        exact executeAssistantTool_history env (nestedAt i) (jsTrim c.name) c.arguments
          d d2 res hex

/-- Every streaming adapter surfaces a mid-read client abort as the thrown
`AbortError` without any further fetch attempt or backoff delay, emitting
exactly the deltas read before the abort; in particular `callGeminiStream`'s
transient-retry loop does not retry an abort. -/
theorem callLlmStream_readAborted (penv : ProviderEnv) (rp : List Char)
    (ts : List (List Char)) :
    callLlmStream penv rp (fun _ => StreamAttempt.readAborted ts) =
      ⟨.error abortError, ts, 1, []⟩ := by
  simp only [callLlmStream]
  by_cases h1 : resolveProviderForRequest penv rp = "openai".data
  · rw [if_pos h1]
    rfl
  · rw [if_neg h1]
    by_cases h2 : resolveProviderForRequest penv rp = "gemini".data
    · rw [if_pos h2]
      rfl
    · rw [if_neg h2]
      rfl

/-- C9: when the RESPONDING stream of the streaming agent endpoint is
cancelled by a client disconnect mid-token-stream, the abort is never
retried — one fetch attempt, no backoff — whichever provider is resolved;
the emitted trace contains exactly the token events read before the abort
and ends with a single `error` event carrying `Client disconnected.`; no
`done` event is emitted anywhere in the trace; and the returned state keeps
the tool effects but appends no history entry for the incomplete turn, with
nothing saved. -/
theorem stream_cancel_no_retry_error_end_no_history :
    ∀ (env : Env) (penv : ProviderEnv) (pe : PromptEnv) (oracle : LlmCall → List Char)
      (nestedAt : Nat → List Char) (ts : List (List Char)) (message raw : List Char)
      (planData : PlanResponse) (rep : Bool) (data0 : AxisData),
      (callLlmWithJsonRepair oracle assistantPlannerResponseSchemaParse plannerSystem
          (pe.plannerPromptOf message (buildAssistantSnapshot data0)
            (formatAssistantHistory data0.assistantHistory)) (3 / 20) 900
          (some plannerSchemaHint)).1 = .success raw planData rep →
      (planData.tool_calls.take 6).isEmpty = false →
      (∀ rp, callLlmStream penv rp (fun _ => StreamAttempt.readAborted ts) =
          ⟨.error abortError, ts, 1, []⟩)
      ∧ agentStreamPost env penv pe oracle nestedAt
            (fun _ => StreamAttempt.readAborted ts) message data0 =
          ([.meta (resolveProviderForUserData penv data0.aiProvider),
            .statusEv "planning".data none none,
            .statusEv "acting".data none none]
            ++ toolStatusEvents
                (runToolCalls env nestedAt (planData.tool_calls.take 6) 0 data0).1
            ++ [.statusEv "responding".data none none]
            ++ ts.map SseEvent.token
            ++ [.errorEv "Client disconnected.".data],
           (runToolCalls env nestedAt (planData.tool_calls.take 6) 0 data0).2.1,
           false)
      ∧ (∀ ev ∈ (agentStreamPost env penv pe oracle nestedAt
            (fun _ => StreamAttempt.readAborted ts) message data0).1,
          ev.isDone = false)
      ∧ (agentStreamPost env penv pe oracle nestedAt
            (fun _ => StreamAttempt.readAborted ts) message data0).2.1.assistantHistory =
          data0.assistantHistory := by
  intro env penv pe oracle nestedAt ts message raw planData rep data0 hplan hne
  have hcond : ¬((planData.tool_calls.take 6).isEmpty = true) := by simp [hne]
  have hout : agentStreamPost env penv pe oracle nestedAt
      (fun _ => StreamAttempt.readAborted ts) message data0 =
      ([.meta (resolveProviderForUserData penv data0.aiProvider),
        .statusEv "planning".data none none,
        .statusEv "acting".data none none]
        ++ toolStatusEvents
            (runToolCalls env nestedAt (planData.tool_calls.take 6) 0 data0).1
        ++ [.statusEv "responding".data none none]
        ++ ts.map SseEvent.token
        ++ [.errorEv "Client disconnected.".data],
       (runToolCalls env nestedAt (planData.tool_calls.take 6) 0 data0).2.1,
       false) := by
    simp only [agentStreamPost, hplan]
    rw [if_neg hcond, callLlmStream_readAborted penv
      (resolveProviderForUserData penv data0.aiProvider) ts]
    rfl
  refine ⟨fun rp => callLlmStream_readAborted penv rp ts, hout, ?_, ?_⟩
  · intro ev hev
    rw [hout] at hev
    rcases List.mem_append.mp hev with h | h
    · rcases List.mem_append.mp h with h | h
      · rcases List.mem_append.mp h with h | h
        · rcases List.mem_append.mp h with h | h
          · simp only [List.mem_cons, List.not_mem_nil, or_false] at h
            rcases h with rfl | rfl | rfl <;> rfl
          · exact (toolStatusEvents_not_done_not_token _ ev h).1
        · simp only [List.mem_singleton] at h
          subst h
          rfl
      · obtain ⟨t, -, rfl⟩ := List.mem_map.mp h
        rfl
    · simp only [List.mem_singleton] at h
      subst h
      rfl
  · rw [hout]
    exact runToolCalls_history env nestedAt (planData.tool_calls.take 6) 0 data0

/-- The planner reply of the C9 witness: one `get_snapshot` tool call. -/
def replyC9 : List Char :=
  "\x7b\"assistant_reply\":\"ok\",\"tool_calls\":[\x7b\"name\":\"get_snapshot\"\x7d]\x7d".data

/-- The C9 oracle: every call returns `replyC9`. -/
def oracleC9 : LlmCall → List Char := fun _ => replyC9

/-- The validated plan `replyC9` parses to. -/
def planC9 : PlanResponse :=
  ⟨"ok".data, [⟨"get_snapshot".data, none⟩]⟩

/-- A provider environment with nothing configured. -/
def penvC9 : ProviderEnv := ⟨[], [], [], []⟩

/-- Prompt builders returning empty prompts. -/
def peC9 : PromptEnv := ⟨fun _ _ _ => [], fun _ _ _ => [], fun _ _ _ => []⟩

/-- Witness for C9 at a concrete aborted turn: the abort is not retried and
the history is left untouched. -/
theorem stream_cancel_no_retry_error_end_no_history_witness :
    callLlmStream penvC9 "gemini".data (fun _ => StreamAttempt.readAborted ["Hi".data]) =
      ⟨.error abortError, ["Hi".data], 1, []⟩
    ∧ (agentStreamPost envW penvC9 peC9 oracleC9 (fun _ => [])
        (fun _ => StreamAttempt.readAborted ["Hi".data]) "hello".data
        dataW).2.1.assistantHistory = dataW.assistantHistory := by
  have h := stream_cancel_no_retry_error_end_no_history envW penvC9 peC9 oracleC9
    (fun _ => []) ["Hi".data] "hello".data replyC9 planC9 false dataW rfl rfl
  exact ⟨h.1 "gemini".data, h.2.2.2⟩

/-- A successful brace scan consumes a nonempty prefix of the input after
the accumulator. -/
theorem scanBraces_out (l : List Char) :
    ∀ (d : Int) (inS esc : Bool) (acc out : List Char),
      scanBraces l d inS esc acc = some out →
      ∃ c rest consumed, l = c :: rest ∧ out = acc.reverse ++ c :: consumed := by
  induction l with
  | nil =>
    intro d inS esc acc out h
    simp [scanBraces] at h
  | cons c rest ih =>
    intro d inS esc acc out h
    simp only [scanBraces] at h
    split_ifs at h
    all_goals
      first
      | (obtain ⟨c2, r2, cons2, -, hout⟩ := ih _ _ _ _ _ h
         exact ⟨c, rest, c2 :: cons2, rfl, by rw [hout]; simp⟩)
      | (injection h with h'
         exact ⟨c, rest, [], rfl, by rw [← h']; simp⟩)

/-- The extracted brace-balanced substring starts with `\x7b`. -/
theorem extractFirstJsonObject_brace (t e : List Char)
    (h : extractFirstJsonObject t = some e) : e.head? = some '{' := by
  unfold extractFirstJsonObject at h
  rcases hd : t.dropWhile (fun c => c ≠ '{') with _ | ⟨c, rest⟩
  · simp only [hd] at h
    exact Option.noConfusion h
  · simp only [hd] at h
    obtain ⟨c2, r2, cons2, heq, hout⟩ := scanBraces_out (c :: rest) 0 false false [] e h
    injection heq with hc hr
    subst hc
    rw [hout]
    have hpred := List.head?_dropWhile_not (fun c => c ≠ '{') t
    rw [hd] at hpred
    simp only [List.head?_cons] at hpred
    have hc2 : c = '{' := by simpa using hpred
    subst hc2
    simp

/-- A parse of a string whose first character is `\x7b` can only produce an
object value. -/
theorem parseValue_brace (fuel : Nat) (s : List Char) (v : Json) (rem : List Char)
    (hh : s.head? = some '{') (h : parseValue fuel s = some (v, rem)) :
    ∃ f, v = Json.obj f := by
  cases s with
  | nil => simp at hh
  | cons c rest =>
    have hc : c = '{' := by simpa using hh
    subst hc
    cases fuel with
    | zero => simp [parseValue] at h
    | succ n =>
      have hsk : skipWs ('{' :: rest) = '{' :: rest := by
        show List.dropWhile isWs ('{' :: rest) = _
        rw [List.dropWhile_cons, if_neg (by decide)]
      simp only [parseValue, hsk] at h
      rw [if_pos trivial] at h
      split at h
      · injection h with hp
        injection hp with hv hr
        exact ⟨[], hv.symm⟩
      · obtain ⟨⟨f, r3⟩, -, hv⟩ := Option.map_eq_some'.mp h
        injection hv with h1 h2
        exact ⟨f, h1.symm⟩

/-- `JSON.parse` of a string whose first character is `\x7b` can only
produce an object. -/
theorem jsonParse_brace_obj (s : List Char) (v : Json)
    (hh : s.head? = some '{') (h : jsonParse s = some v) :
    ∃ f, v = Json.obj f := by
  unfold jsonParse at h
  rcases hp : parseValue (2 * s.length + 2) s with _ | ⟨w, rest⟩
  · simp only [hp] at h
    exact Option.noConfusion h
  · simp only [hp] at h
    by_cases hws : skipWs rest = []
    · rw [if_pos hws] at h
      injection h with hv
      obtain ⟨f, hf⟩ := parseValue_brace _ s w rest hh hp
      exact ⟨f, by rw [← hv, hf]⟩
    · rw [if_neg hws] at h
      exact Option.noConfusion h

/-- A truthiness-gated parse only lets truthy values through. -/
theorem truthyOpt_some (o : Option Json) (v : Json) (h : truthyOpt o = some v) :
    isTruthy v = true := by
  rcases o with _ | w
  · exact Option.noConfusion h
  · by_cases hw : isTruthy w = true
    · simp only [truthyOpt] at h
      rw [if_pos hw] at h
      injection h with hv
      rw [← hv]
      exact hw
    · simp only [truthyOpt] at h
      rw [if_neg hw] at h
      exact Option.noConfusion h

/-- `safeParseJSONFromText` never returns a falsy value: the first two
stages are truthiness-gated, and the extraction stage can only parse an
object. -/
theorem safeParseJSONFromText_truthy (t : List Char) (v : Json)
    (h : safeParseJSONFromText t = some v) : isTruthy v = true := by
  simp only [safeParseJSONFromText] at h
  cases h1 : truthyOpt (safeParseJSON (jsTrim t)) with
  | some w =>
    simp only [h1, Option.some.injEq] at h
    subst h
    exact truthyOpt_some _ _ h1
  | none =>
    simp only [h1] at h
    cases h2 : truthyOpt (safeParseJSON (jsTrim (removeFences (jsTrim t)))) with
    | some w =>
      simp only [h2, Option.some.injEq] at h
      subst h
      exact truthyOpt_some _ _ h2
    | none =>
      simp only [h2] at h
      rcases ha : extractFirstJsonObject (jsTrim t) with _ | e1
      · rcases hb : extractFirstJsonObject (jsTrim (removeFences (jsTrim t))) with _ | e2
        · simp only [ha, hb, Option.or] at h
          exact Option.noConfusion h
        · simp only [ha, hb, Option.or] at h
          obtain ⟨f, rfl⟩ := jsonParse_brace_obj e2 v
            (extractFirstJsonObject_brace _ _ hb) h
          rfl
      · simp only [ha, Option.or] at h
        obtain ⟨f, rfl⟩ := jsonParse_brace_obj e1 v
          (extractFirstJsonObject_brace _ _ ha) h
        rfl

/-- The first reply of the C10 witness pipeline: the falsy JSON text `0`. -/
def oracleC10 : LlmCall → List Char := fun _ => "0".data

/-- C10: each JSON text parsing to a falsy value (`0`, `false`, `null`,
`""`) parses successfully yet is treated as a parse failure by every stage
of `safeParseJSONFromText`, which returns `null` for it; in general the
helper only ever returns truthy values (the gated stages by construction,
the brace extraction because it can only parse an object), a truthy direct
parse is returned as-is, and a reply on which the helper returns `null`
always falls through to the corrective repair call (two LLM calls issued)
for any schema that rejects a missing value. -/
theorem falsy_json_falls_through_to_repair :
    (safeParseJSON "0".data = some (Json.num 0 0)
      ∧ safeParseJSONFromText "0".data = none)
    ∧ (safeParseJSON "false".data = some (Json.bool false)
      ∧ safeParseJSONFromText "false".data = none)
    ∧ (safeParseJSON "null".data = some Json.null
      ∧ safeParseJSONFromText "null".data = none)
    ∧ (safeParseJSON "\"\"".data = some (Json.str [])
      ∧ safeParseJSONFromText "\"\"".data = none)
    ∧ (∀ (t : List Char) (v : Json),
        safeParseJSONFromText t = some v → isTruthy v = true)
    ∧ (∀ (t : List Char) (v : Json),
        truthyOpt (safeParseJSON (jsTrim t)) = some v →
        safeParseJSONFromText t = some v)
    ∧ (∀ {α : Type} (oracle : LlmCall → List Char) (schema : Option Json → Option α)
        (system userMsg : List Char) (temperature : ℚ) (maxTokens : Nat)
        (schemaHint : Option (List Char)),
        schema none = none →
        safeParseJSONFromText (oracle ⟨system, userMsg, temperature, maxTokens, true⟩) =
          none →
        (callLlmWithJsonRepair oracle schema system userMsg temperature maxTokens
          schemaHint).2.length = 2) := by
  refine ⟨⟨rfl, rfl⟩, ⟨rfl, rfl⟩, ⟨rfl, rfl⟩, ⟨rfl, rfl⟩,
    safeParseJSONFromText_truthy, ?_, ?_⟩
  · intro t v h
    simp only [safeParseJSONFromText, h]
  · intro α oracle schema system userMsg temperature maxTokens schemaHint hnone hparse
    simp only [callLlmWithJsonRepair, hparse, hnone]
    cases hrep : schema (safeParseJSONFromText
        (oracle ⟨strictJsonFormatterSystem,
          buildRepairUser schemaHint (oracle ⟨system, userMsg, temperature, maxTokens, true⟩),
          0, max 300 (min maxTokens 1200), true⟩)) <;> simp [hrep]

/-- Witness for C10 at concrete inputs: a truthy object reply is recovered,
and the falsy reply `0` drives the planner pipeline to the repair call. -/
theorem falsy_json_falls_through_to_repair_witness :
    isTruthy (Json.obj []) = true
    ∧ (callLlmWithJsonRepair oracleC10 assistantPlannerResponseSchemaParse "s".data
        "u".data (1 / 2 : ℚ) 500 none).2.length = 2 := by
  refine ⟨?_, ?_⟩
  · exact falsy_json_falls_through_to_repair.2.2.2.2.1 "\x7b\x7d".data (Json.obj []) rfl
  · exact falsy_json_falls_through_to_repair.2.2.2.2.2.2 oracleC10
      assistantPlannerResponseSchemaParse "s".data "u".data (1 / 2) 500 none rfl rfl

end Axis
